import Mathlib

/-
Verification development for a Python CNF SAT solver (DPLL and CDCL engines over a
shared bookkeeping state, with Two-Watched-Literal variants).

The Python code is shallowly embedded:
  - Python dicts become insertion-ordered association lists,
  - Python sets become insertion-ordered duplicate-free lists,
  - Python lists become Lean lists (indexed access via getD, in-place update via set),
  - fallible operations (del of a missing key, next() on an exhausted generator,
    attribute lookup of a method that does not exist) return Except values,
  - the recursive or looping engines take an explicit fuel argument.
-/

namespace SatCheck

/-- Python abs on integers. -/
def pyabs (n : Int) : Int := Int.ofNat n.natAbs

/-- Lookup in a Python dict modelled as an insertion-ordered association list. -/
def dictGet (d : List (Int × α)) (k : Int) : Option α :=
  match d with
  | [] => none
  | (k2, v) :: rest => if k2 = k then some v else dictGet rest k

/-- Python `k in d` membership test. -/
def dictContains (d : List (Int × α)) (k : Int) : Bool :=
  (dictGet d k).isSome

/-- Python `d[k] = v`: overwrite in place if the key exists, else append. -/
def dictSet (d : List (Int × α)) (k : Int) (v : α) : List (Int × α) :=
  match d with
  | [] => [(k, v)]
  | (k2, v2) :: rest => if k2 = k then (k, v) :: rest else (k2, v2) :: dictSet rest k v

/-- Python `del d[k]`, raising KeyError when the key is absent. -/
def dictDel (d : List (Int × α)) (k : Int) : Except String (List (Int × α)) :=
  match d with
  | [] => .error "KeyError"
  | (k2, v2) :: rest =>
    if k2 = k then .ok rest else (dictDel rest k).map (fun r => (k2, v2) :: r)

/-- Total variant of `del d[k]` for call sites where the key is guaranteed present
(absent keys leave the dict unchanged). -/
def dictDelT (d : List (Int × α)) (k : Int) : List (Int × α) :=
  match d with
  | [] => []
  | (k2, v2) :: rest => if k2 = k then rest else (k2, v2) :: dictDelT rest k

/-- Python `set.add` for a set of clause indices, modelled insertion-ordered. -/
def setAdd (s : List Nat) (i : Nat) : List Nat := if i ∈ s then s else s ++ [i]

/-- Python `set.remove` / `set.discard` for sets that never hold duplicates;
`List.erase` removes the single occurrence. -/
def setRemove (s : List Nat) (i : Nat) : List Nat := s.erase i

/-- Python `set.add` for a set of literals. -/
def intSetAdd (s : List Int) (x : Int) : List Int := if x ∈ s then s else s ++ [x]

/-- Python `set(xs)` built from a list, keeping first-occurrence order. -/
def intSetOfList (l : List Int) : List Int := l.foldl intSetAdd []

/--
The plain SATProblem state (src/src/sat_solver/SATProblems/sat_problem.py).
Field names follow the Python attributes.
-/
structure SATProblem where
  clauses : List (List Int)
  assignments : List (Int × Bool)
  satisfaction_map : List Bool
  clauses_by_literal : List (Int × List Nat)
  num_of_assigned_literals_that_satisfy_a_clause : List Int
  num_of_unassigned_literals_in_clause : List Int
  contradicted_clauses : List Nat
  unitary_clauses : List Nat
deriving Repr, DecidableEq

/-- One step of SATProblem._build_clauses_by_literal: append clause index i to the
occurrence list of lit (creating the entry when missing). -/
def cblAppend (m : List (Int × List Nat)) (lit : Int) (i : Nat) : List (Int × List Nat) :=
  match dictGet m lit with
  | none => m ++ [(lit, [i])]
  | some l => dictSet m lit (l ++ [i])

/-- SATProblem._build_clauses_by_literal. -/
def buildClausesByLiteral (clauses : List (List Int)) : List (Int × List Nat) :=
  clauses.enum.foldl (fun m p => p.2.foldl (fun m2 lit => cblAppend m2 lit p.1) m) []

/-- SATProblem._initial_unit_clauses_check. -/
def initUnitClausesCheck (clauses : List (List Int)) : List Nat :=
  clauses.enum.foldl (fun s p => if p.2.length = 1 then setAdd s p.1 else s) []

/-- SATProblem construction (the initialize_computed_fields model validator). -/
def SATProblem.init (clauses : List (List Int)) : SATProblem :=
  { clauses := clauses
    assignments := []
    satisfaction_map := List.replicate clauses.length false
    clauses_by_literal := buildClausesByLiteral clauses
    num_of_assigned_literals_that_satisfy_a_clause := List.replicate clauses.length 0
    num_of_unassigned_literals_in_clause := clauses.map (fun c => (c.length : Int))
    contradicted_clauses := []
    unitary_clauses := initUnitClausesCheck clauses }

/-- Body of the first loop of SATProblem._new_literal_assigned, for one clause index. -/
def newStep1 (t : SATProblem) (c : Nat) : SATProblem :=
  let t :=
    { t with
      satisfaction_map := t.satisfaction_map.set c true
      num_of_assigned_literals_that_satisfy_a_clause :=
        t.num_of_assigned_literals_that_satisfy_a_clause.set c
          (t.num_of_assigned_literals_that_satisfy_a_clause.getD c 0 + 1)
      num_of_unassigned_literals_in_clause :=
        t.num_of_unassigned_literals_in_clause.set c
          (t.num_of_unassigned_literals_in_clause.getD c 0 - 1) }
  if c ∈ t.unitary_clauses then { t with unitary_clauses := setRemove t.unitary_clauses c }
  else t

/-- Body of the second loop of SATProblem._new_literal_assigned, for one clause index. -/
def newStep2 (t : SATProblem) (c : Nat) : SATProblem :=
  let t :=
    { t with
      num_of_unassigned_literals_in_clause :=
        t.num_of_unassigned_literals_in_clause.set c
          (t.num_of_unassigned_literals_in_clause.getD c 0 - 1) }
  if t.num_of_unassigned_literals_in_clause.getD c 0 = 0 ∧
      t.satisfaction_map.getD c false = false then
    { t with contradicted_clauses := setAdd t.contradicted_clauses c }
  else if t.num_of_unassigned_literals_in_clause.getD c 0 = 1 ∧
      t.satisfaction_map.getD c false = false then
    { t with unitary_clauses := setAdd t.unitary_clauses c }
  else t

/-- SATProblem._new_literal_assigned. -/
def SATProblem.newLiteralAssigned (s : SATProblem) (lit : Int) : SATProblem :=
  let s1 :=
    match dictGet s.clauses_by_literal lit with
    | none => s
    | some idxs => idxs.foldl newStep1 s
  match dictGet s1.clauses_by_literal (-lit) with
  | none => s1
  | some idxs => idxs.foldl newStep2 s1

/-- Body of the first loop of SATProblem._old_literal_unassigned, for one clause index. -/
def oldStep1 (t : SATProblem) (c : Nat) : SATProblem :=
  let t :=
    { t with
      num_of_unassigned_literals_in_clause :=
        t.num_of_unassigned_literals_in_clause.set c
          (t.num_of_unassigned_literals_in_clause.getD c 0 + 1)
      num_of_assigned_literals_that_satisfy_a_clause :=
        t.num_of_assigned_literals_that_satisfy_a_clause.set c
          (t.num_of_assigned_literals_that_satisfy_a_clause.getD c 0 - 1) }
  if t.num_of_assigned_literals_that_satisfy_a_clause.getD c 0 = 0 then
    let t := { t with satisfaction_map := t.satisfaction_map.set c false }
    if t.num_of_unassigned_literals_in_clause.getD c 0 = 1 then
      { t with unitary_clauses := setAdd t.unitary_clauses c }
    else t
  else t

/-- Body of the second loop of SATProblem._old_literal_unassigned, for one clause index. -/
def oldStep2 (t : SATProblem) (c : Nat) : SATProblem :=
  let t :=
    if t.num_of_assigned_literals_that_satisfy_a_clause.getD c 0 = 0 ∧
        t.satisfaction_map.getD c false = false then
      if c ∈ t.contradicted_clauses then
        { t with contradicted_clauses := setRemove t.contradicted_clauses c
                 unitary_clauses := setAdd t.unitary_clauses c }
      else t
    else t
  let t :=
    { t with
      num_of_unassigned_literals_in_clause :=
        t.num_of_unassigned_literals_in_clause.set c
          (t.num_of_unassigned_literals_in_clause.getD c 0 + 1) }
  if c ∈ t.unitary_clauses ∧ t.satisfaction_map.getD c false = false then
    if t.num_of_unassigned_literals_in_clause.getD c 0 > 1 then
      { t with unitary_clauses := setRemove t.unitary_clauses c }
    else t
  else t

/-- SATProblem._old_literal_unassigned. -/
def SATProblem.oldLiteralUnassigned (s : SATProblem) (lit : Int) : SATProblem :=
  let s1 :=
    match dictGet s.clauses_by_literal lit with
    | none => s
    | some idxs => idxs.foldl oldStep1 s
  match dictGet s1.clauses_by_literal (-lit) with
  | none => s1
  | some idxs => idxs.foldl oldStep2 s1

/-- update_satisfaction_map with operation new assignment. -/
def SATProblem.updNew (s : SATProblem) (lit : Int) : SATProblem :=
  s.newLiteralAssigned lit

/-- update_satisfaction_map with operation undo assignment (one call per literal). -/
def SATProblem.updUndo (s : SATProblem) (lits : List Int) : SATProblem :=
  lits.foldl (fun t l => t.oldLiteralUnassigned l) s

/-- update_satisfaction_map with operation change assignment. -/
def SATProblem.updChange (s : SATProblem) (lit : Int) : SATProblem :=
  (s.oldLiteralUnassigned (-lit)).newLiteralAssigned lit

/-- SATProblem.is_satisfied. -/
def SATProblem.isSatisfied (s : SATProblem) : Bool := s.satisfaction_map.all (fun b => b)

/-- SATProblem.is_unsatisfiable. -/
def SATProblem.isUnsatisfiable (s : SATProblem) : Bool := s.contradicted_clauses.length ≥ 1

/-
Branching heuristics (literal_count_branching_heuristics.py and
moms_branching_heuristics.py). A heuristic returns an int literal or Python None;
Python expressions that raise (None * int, min of an empty sequence) are modelled
with Except.
-/

/-- Python multiplication best_var * best_sign where best_var may be None
(raising TypeError). -/
def pyMulOpt (a : Option Int) (b : Int) : Except String Int :=
  match a with
  | none => .error "TypeError"
  | some v => .ok (v * b)

/-- default_heuristic: first literal, scanned in clause order over unsatisfied
clauses, whose variable is unassigned; returned as abs, or None. -/
def default_heuristic (p : SATProblem) : Option Int :=
  let unassigned_literals :=
    p.clauses.enum.foldl (fun acc pr =>
      acc ++ pr.2.filter (fun lit =>
        ¬ dictContains p.assignments (pyabs lit) ∧ p.satisfaction_map.getD pr.1 false = false)) []
  match unassigned_literals.head? with
  | some l => some (pyabs l)
  | none => none

/-- _count_literals: per-variable positive and negative occurrence counts over
unsatisfied clauses, skipping assigned variables; dict in insertion order. -/
def countLiterals (p : SATProblem) : List (Int × (Int × Int)) :=
  p.clauses.enum.foldl (fun m pr =>
    if p.satisfaction_map.getD pr.1 false then m
    else
      pr.2.foldl (fun m2 lit =>
        if dictContains p.assignments (pyabs lit) then m2
        else
          let var := pyabs lit
          let m2 := if dictContains m2 var then m2 else m2 ++ [(var, (0, 0))]
          let c := (dictGet m2 var).getD (0, 0)
          if 0 < lit then dictSet m2 var (c.1 + 1, c.2) else dictSet m2 var (c.1, c.2 + 1)) m) []

/-- dlcs heuristic. -/
def dlcs (p : SATProblem) : Except String Int :=
  let best := (countLiterals p).foldl (fun (acc : Option Int × Int × Int) pr =>
    let combined := pr.2.1 + pr.2.2
    if combined > acc.2.1 then (some pr.1, combined, if pr.2.1 ≥ pr.2.2 then 1 else -1)
    else acc) (none, -1, 1)
  pyMulOpt best.1 best.2.2

/-- dlis heuristic. -/
def dlis (p : SATProblem) : Except String Int :=
  let best := (countLiterals p).foldl (fun (acc : Option Int × Int × Int) pr =>
    let acc := if pr.2.1 > acc.2.1 then (some pr.1, pr.2.1, 1) else acc
    if pr.2.2 > acc.2.1 then (some pr.1, pr.2.2, -1) else acc) (none, -1, 1)
  pyMulOpt best.1 best.2.2

/-- Number of literals of a clause whose variable is unassigned (the clause-size
measure used by the MOMs heuristic). -/
def unassignedLen (p : SATProblem) (clause : List Int) : Int :=
  ((clause.filter (fun lit => ¬ dictContains p.assignments (pyabs lit))).length : Int)

/-- _count_occurrences_in_smallest_clauses: min() of an empty sequence raises
ValueError; the counting loop counts every literal of each smallest unsatisfied
clause, with no assignment filter (as in the source). -/
def countOccurrencesInSmallestClauses (p : SATProblem) :
    Except String (List (Int × (Int × Int))) :=
  let sizes := p.clauses.enum.foldl (fun acc pr =>
    if p.satisfaction_map.getD pr.1 false then acc else acc ++ [unassignedLen p pr.2]) []
  match sizes with
  | [] => .error "ValueError"
  | sz0 :: szrest =>
    let min_clause_size := szrest.foldl min sz0
    .ok (p.clauses.enum.foldl (fun m pr =>
      if p.satisfaction_map.getD pr.1 false ∨ unassignedLen p pr.2 ≠ min_clause_size then m
      else
        pr.2.foldl (fun m2 lit =>
          let var := pyabs lit
          let m2 := if dictContains m2 var then m2 else m2 ++ [(var, (0, 0))]
          let c := (dictGet m2 var).getD (0, 0)
          if 0 < lit then dictSet m2 var (c.1 + 1, c.2) else dictSet m2 var (c.1, c.2 + 1)) m) [])

/-- moms heuristic with parameter k. -/
def moms (p : SATProblem) (k : Nat) : Except String Int := do
  let literal_counts ← countOccurrencesInSmallestClauses p
  let best := literal_counts.foldl (fun (acc : Option Int × Int × Int) pr =>
    let score := (pr.2.1 + pr.2.2) * ((2 : Int) ^ k) + pr.2.1 * pr.2.2
    if score > acc.2.1 then (some pr.1, score, if pr.2.1 ≥ pr.2.2 then 1 else -1)
    else acc) (none, -1, 1)
  pyMulOpt best.1 best.2.2

/-- A heuristic as the DPLL engine sees it: an int literal, Python None, or a
raised exception. -/
abbrev Heur := SATProblem → Except String (Option Int)

/-- The engine entry for default_heuristic. -/
def heurDefault : Heur := fun p => .ok (default_heuristic p)

/-- The engine entry for dlcs. -/
def heurDlcs : Heur := fun p => (dlcs p).map some

/-- The engine entry for dlis. -/
def heurDlis : Heur := fun p => (dlis p).map some

/-- The engine entry for moms with parameter k. -/
def heurMoms (k : Nat) : Heur := fun p => (moms p k).map some

/-
The DPLL engine (src/src/sat_solver/Solvers/dpll_solver.py). decision_level is
threaded explicitly; fuel bounds the recursion and the BCP loop.
-/

/-- DPLLSolver._unit_propagation: pick the first clause of unitary-set iteration,
locate its unassigned literal via next() (StopIteration if there is none), record
the assignment in the assignments dict. -/
def unitPropagation (p : SATProblem) : Except String (Option (Int × Nat) × SATProblem) :=
  match p.unitary_clauses with
  | [] => .ok (none, p)
  | i :: _ =>
    match (p.clauses.getD i []).find? (fun lit => ¬ dictContains p.assignments (pyabs lit)) with
    | none => .error "StopIteration"
    | some u =>
      .ok (some (u, i),
        { p with assignments := dictSet p.assignments (pyabs u) (decide (0 < u)) })

/-- DPLLSolver._unit_propagation_loop. Returns (BCP result, propagated literals). -/
def unitPropagationLoop : Nat → SATProblem → List Int →
    Except String (Option Bool × List Int × SATProblem)
  | 0, _, _ => .error "Fuel"
  | n + 1, p, propagated => do
    let (r, p) ← unitPropagation p
    match r with
    | none => .ok (none, propagated, p)
    | some (implied, _i) =>
      let propagated := propagated ++ [implied]
      let p := p.newLiteralAssigned implied
      if p.isSatisfied then .ok (some true, [], p)
      else if p.isUnsatisfiable then do
        let a ← propagated.foldlM (fun acc lit => dictDel acc (pyabs lit)) p.assignments
        let p := SATProblem.updUndo { p with assignments := a } propagated
        .ok (some false, [], p)
      else unitPropagationLoop n p propagated

/-- DPLLSolver._make_decision. -/
def makeDecision (p : SATProblem) (d : Int) (first_branch : Bool) : SATProblem :=
  let p := { p with assignments := dictSet p.assignments (pyabs d) (decide (0 < d)) }
  if first_branch then p.updNew d else p.updChange d

/-- DPLLSolver._undo_assignments. -/
def undoAssignments (p : SATProblem) (decision_literal : Int) (propagated : List Int) :
    Except String SATProblem := do
  let a ← dictDel p.assignments (pyabs decision_literal)
  let a ← propagated.foldlM (fun acc lit => dictDel acc (pyabs lit)) a
  .ok (SATProblem.updUndo { p with assignments := a } ((-decision_literal) :: propagated))

/-- DPLLSolver._dpll_recursive (fuel-bounded), threading decision_level. -/
def dpllRecursive (H : Heur) : Nat → Int → SATProblem →
    Except String (Bool × Int × SATProblem)
  | 0, _, _ => .error "Fuel"
  | n + 1, level, p =>
    if p.isSatisfied then .ok (true, level, p)
    else if p.isUnsatisfiable then .ok (false, level, p)
    else do
      let (bcp, propagated, p) ← unitPropagationLoop (n + 1) p []
      match bcp with
      | some b => .ok (b, level, p)
      | none => do
        let dOpt ← H p
        match dOpt with
        | none => .error "TypeError"
        | some d =>
          let level := level + 1
          let p := makeDecision p d true
          let (r1, level, p) ← dpllRecursive H n level p
          if r1 then .ok (true, level, p)
          else do
            let p := makeDecision p (-d) false
            let (r2, level, p) ← dpllRecursive H n level p
            if r2 then .ok (true, level, p)
            else do
              let p ← undoAssignments p d propagated
              .ok (false, level - 1, p)

/-- DPLLSolver.solve on a plain SATProblem built from the given clauses. -/
def dpllSolve (H : Heur) (fuel : Nat) (clauses : List (List Int)) :
    Except String (Bool × Int × SATProblem) :=
  dpllRecursive H fuel 0 (SATProblem.init clauses)

/-
The CDCL engine (src/src/sat_solver/Solvers/cdcl_solver.py), specialised to the
plain SATProblem state (twl = true_twl = False). The implication graph maps a
literal to (decision_level, antecedent clause index or None).
-/

/-- CDCL solver state: the problem plus the solver-object fields it mutates. -/
structure CDCLState where
  problem : SATProblem
  decision_level : Int
  implication_graph : List (Int × (Int × Option Nat))
  learned_clauses : List (List Int)
deriving Repr, DecidableEq

/-- CDCLSolver._unit_propagation_loop: propagate, record graph entries, and on a
conflict return the contradicted clause popped from the contradicted set (its
literal list, since the state is plain). -/
def cdclUnitPropagationLoop : Nat → CDCLState →
    Except String (Option (List Int) × CDCLState)
  | 0, _ => .error "Fuel"
  | n + 1, st => do
    let (r, p) ← unitPropagation st.problem
    match r with
    | none => .ok (none, { st with problem := p })
    | some (implied, i) =>
      let st :=
        { st with
          problem := p.newLiteralAssigned implied
          implication_graph :=
            dictSet st.implication_graph implied (st.decision_level, some i) }
      if st.problem.isUnsatisfiable then
        match st.problem.contradicted_clauses with
        | c :: _ => .ok (some (st.problem.clauses.getD c []), st)
        | [] => .error "KeyError"
      else cdclUnitPropagationLoop n st

/-- Decision level recorded in the graph for a literal, as
implication_graph.get(lit, dict()).get(decision_level). -/
def graphLevel (g : List (Int × (Int × Option Nat))) (lit : Int) : Option Int :=
  (dictGet g lit).map Prod.fst

/-- Initial decision_level_literals list of CDCLSolver._analyze_conflict. -/
def analyzeInitialD (g : List (Int × (Int × Option Nat))) (L : Int)
    (conflict : List Int) : List Int :=
  conflict.filter (fun lit => graphLevel g (-lit) = some L)

/-- The while-loop of CDCLSolver._analyze_conflict, fuel-bounded: pop the last
pending current-level literal; a decision (antecedent None) is rotated to the
front; otherwise resolve with its antecedent clause (filtering seen variables)
and recompute the pending list from the learned set. On exit, the backtrack
level is the maximum graph level over learned literals outside the pending list
(default 0). -/
def analyzeLoop (g : List (Int × (Int × Option Nat))) (clauses : List (List Int))
    (L : Int) : Nat → List Int → List Int → List Int →
    Except String (List Int × Int)
  | 0, _, _, _ => .error "Fuel"
  | n + 1, learned, seen, D =>
    if D.length > 1 then
      let lit := D.getLastD 0
      let D := D.dropLast
      match dictGet g (-lit) with
      | none => .error "KeyError"
      | some (_, ante) =>
        match ante with
        | none => analyzeLoop g clauses L n learned seen (lit :: D)
        | some ci =>
          let antecedent_clause :=
            (intSetOfList (clauses.getD ci [])).filter (fun l2 => ¬ pyabs l2 ∈ seen)
          let learned := antecedent_clause.foldl intSetAdd learned
          let learned := (learned.erase (-lit)).erase lit
          let seen := intSetAdd seen (pyabs lit)
          let D := learned.filter (fun l2 => graphLevel g (-l2) = some L)
          analyzeLoop g clauses L n learned seen D
    else
      let bl := (learned.filter (fun l2 => ¬ l2 ∈ D)).foldl
        (fun acc l2 => max acc ((graphLevel g (-l2)).getD 0)) 0
      .ok (learned, bl)

/-- CDCLSolver._analyze_conflict (fuel-bounded). -/
def analyzeConflict (st : CDCLState) (conflict : List Int) (fuel : Nat) :
    Except String (List Int × Int) :=
  analyzeLoop st.implication_graph st.problem.clauses st.decision_level fuel
    (intSetOfList conflict) []
    (analyzeInitialD st.implication_graph st.decision_level conflict)

/-- CDCLSolver._backtrack: iterate a snapshot of the graph items; for entries
above the target level, delete the assignment if present (with an undo update)
and delete the graph entry. -/
def cdclBacktrack (st : CDCLState) (level : Int) : CDCLState :=
  let st' := st.implication_graph.foldl (fun st2 pr =>
    if pr.2.1 > level then
      let var := pyabs pr.1
      let st2 :=
        if dictContains st2.problem.assignments var then
          { st2 with
            problem :=
              SATProblem.updUndo
                { st2.problem with assignments := dictDelT st2.problem.assignments var }
                [pr.1] }
        else st2
      { st2 with implication_graph := dictDelT st2.implication_graph pr.1 }
    else st2) st
  { st' with decision_level := level }

/-- CDCLSolver._make_decision. -/
def cdclMakeDecision (H : Heur) (st : CDCLState) : Except String CDCLState := do
  let dOpt ← H st.problem
  match dOpt with
  | none => .error "TypeError"
  | some d =>
    let level := st.decision_level + 1
    let p := { st.problem with
      assignments := dictSet st.problem.assignments (pyabs d) (decide (0 < d)) }
    .ok { st with
      problem := p.newLiteralAssigned d
      decision_level := level
      implication_graph := dictSet st.implication_graph d (level, none) }

/-- CDCLSolver.solve (fuel-bounded) on the plain SATProblem state. The plain
SATProblem class defines no add_clause method, so the Python attribute lookup
self.problem.add_clause raises AttributeError; that is modelled by the error
value below. -/
def cdclSolveLoop (H : Heur) : Nat → CDCLState → Except String Bool
  | 0, _ => .error "Fuel"
  | n + 1, st => do
    let (conflict?, st) ← cdclUnitPropagationLoop (n + 1) st
    let hasConflict := match conflict? with
      | some c => !c.isEmpty
      | none => false
    if hasConflict then
      let conflict := conflict?.getD []
      if st.decision_level = 0 then .ok false
      else do
        let (learned, backtrack_level) ← analyzeConflict st conflict (n + 1)
        let st := { st with learned_clauses := st.learned_clauses ++ [learned] }
        let st := cdclBacktrack st backtrack_level
        let _ := st
        .error "AttributeError: add_clause"
    else if st.problem.isSatisfied then .ok true
    else do
      let st ← cdclMakeDecision H st
      cdclSolveLoop H n st

/-- CDCLSolver.solve on a plain SATProblem built from the given clauses. -/
def cdclSolve (H : Heur) (fuel : Nat) (clauses : List (List Int)) : Except String Bool :=
  cdclSolveLoop H fuel
    { problem := SATProblem.init clauses
      decision_level := 0
      implication_graph := []
      learned_clauses := [] }

/-
The TWL state (src/src/sat_solver/SATProblems/twl_sat_problem.py). The clauses
field holds the (at most two) watched literals of each clause; original_clauses
holds the full literal lists; clauses_by_literal indexes the original clauses and
clauses_by_watched_literal the watched lists. Python list.remove removes the
first occurrence; the call sites of the source guarantee the element is present,
so absent elements are modelled as leaving the list unchanged.
-/

/-- The TWLSATProblem state. -/
structure TWLSATProblem where
  original_clauses : List (List Int)
  clauses : List (List Int)
  assignments : List (Int × Bool)
  satisfaction_map : List Bool
  clauses_by_literal : List (Int × List Nat)
  clauses_by_watched_literal : List (Int × List Nat)
  num_of_assigned_literals_that_satisfy_a_clause : List Int
  num_of_unassigned_literals_in_clause : List Int
  contradicted_clauses : List Nat
  unitary_clauses : List Nat
  number_of_clauses : Nat
deriving Repr, DecidableEq

/-- TWLSATProblem._initialize_watched_literals: the first two literals of each
clause (the source loop appends until two are collected). -/
def initWatchedLiterals (original_clauses : List (List Int)) : List (List Int) :=
  original_clauses.map (fun c => c.take 2)

/-- TWLSATProblem construction (its initialize_computed_fields model validator). -/
def TWLSATProblem.init (clauses : List (List Int)) : TWLSATProblem :=
  let clauses_with_twl := initWatchedLiterals clauses
  { original_clauses := clauses
    clauses := clauses_with_twl
    assignments := []
    satisfaction_map := List.replicate clauses_with_twl.length false
    clauses_by_literal := buildClausesByLiteral clauses
    clauses_by_watched_literal := buildClausesByLiteral clauses_with_twl
    num_of_assigned_literals_that_satisfy_a_clause :=
      List.replicate clauses_with_twl.length 0
    num_of_unassigned_literals_in_clause := clauses_with_twl.map (fun c => (c.length : Int))
    contradicted_clauses := []
    unitary_clauses := initUnitClausesCheck clauses_with_twl
    number_of_clauses := clauses.length }

/-- TWLSATProblem._update_watched_literals: when a watched literal is falsified,
scan the original clause for the first non-watched literal whose variable is
unassigned and swap it in; return whether a re-watch happened (False also when
the clause is already satisfied). -/
def twlUpdateWatched (t : TWLSATProblem) (clause_index : Nat) (assigned_literal : Int) :
    Bool × TWLSATProblem :=
  if t.satisfaction_map.getD clause_index false then (false, t)
  else
    match (t.original_clauses.getD clause_index []).find? (fun lit =>
        ¬ lit ∈ t.clauses.getD clause_index [] ∧
        ¬ dictContains t.assignments (pyabs lit)) with
    | none => (false, t)
    | some lit =>
      let watched := (t.clauses.getD clause_index []).erase (-assigned_literal)
      let cbwl := dictSet t.clauses_by_watched_literal (-assigned_literal)
        (((dictGet t.clauses_by_watched_literal (-assigned_literal)).getD []).erase clause_index)
      let cbwl :=
        match dictGet cbwl lit with
        | none => cbwl ++ [(lit, [clause_index])]
        | some l => dictSet cbwl lit (l ++ [clause_index])
      (true,
        { t with
          clauses := t.clauses.set clause_index (watched ++ [lit])
          clauses_by_watched_literal := cbwl })

/-- TWLSATProblem._new_literal_assigned. -/
def TWLSATProblem.newLiteralAssigned (s : TWLSATProblem) (lit : Int) : TWLSATProblem :=
  let s1 :=
    match dictGet s.clauses_by_literal lit with
    | none => s
    | some idxs => idxs.foldl (fun t c =>
        let t :=
          { t with
            satisfaction_map := t.satisfaction_map.set c true
            num_of_assigned_literals_that_satisfy_a_clause :=
              t.num_of_assigned_literals_that_satisfy_a_clause.set c
                (t.num_of_assigned_literals_that_satisfy_a_clause.getD c 0 + 1) }
        if lit ∈ t.clauses.getD c [] then
          let t :=
            { t with
              num_of_unassigned_literals_in_clause :=
                t.num_of_unassigned_literals_in_clause.set c
                  (t.num_of_unassigned_literals_in_clause.getD c 0 - 1) }
          if c ∈ t.unitary_clauses then
            { t with unitary_clauses := setRemove t.unitary_clauses c }
          else t
        else t) s
  match dictGet s1.clauses_by_watched_literal (-lit) with
  | none => s1
  | some idxs => idxs.foldl (fun t c =>
      let (updated, t) := twlUpdateWatched t c lit
      if updated then t
      else
        let t :=
          { t with
            num_of_unassigned_literals_in_clause :=
              t.num_of_unassigned_literals_in_clause.set c
                (t.num_of_unassigned_literals_in_clause.getD c 0 - 1) }
        if t.num_of_unassigned_literals_in_clause.getD c 0 = 0 ∧
            t.satisfaction_map.getD c false = false then
          { t with contradicted_clauses := setAdd t.contradicted_clauses c }
        else if t.num_of_unassigned_literals_in_clause.getD c 0 = 1 ∧
            t.satisfaction_map.getD c false = false then
          { t with unitary_clauses := setAdd t.unitary_clauses c }
        else t) s1

/-- TWLSATProblem._old_literal_unassigned. -/
def TWLSATProblem.oldLiteralUnassigned (s : TWLSATProblem) (lit : Int) : TWLSATProblem :=
  let s1 :=
    match dictGet s.clauses_by_literal lit with
    | none => s
    | some idxs => idxs.foldl (fun t c =>
        let t :=
          if lit ∈ t.clauses.getD c [] then
            { t with
              num_of_unassigned_literals_in_clause :=
                t.num_of_unassigned_literals_in_clause.set c
                  (t.num_of_unassigned_literals_in_clause.getD c 0 + 1) }
          else t
        let t :=
          { t with
            num_of_assigned_literals_that_satisfy_a_clause :=
              t.num_of_assigned_literals_that_satisfy_a_clause.set c
                (t.num_of_assigned_literals_that_satisfy_a_clause.getD c 0 - 1) }
        if t.num_of_assigned_literals_that_satisfy_a_clause.getD c 0 = 0 then
          let t := { t with satisfaction_map := t.satisfaction_map.set c false }
          if t.num_of_unassigned_literals_in_clause.getD c 0 = 1 then
            { t with unitary_clauses := setAdd t.unitary_clauses c }
          else t
        else t) s
  match dictGet s1.clauses_by_literal (-lit) with
  | none => s1
  | some idxs => idxs.foldl (fun t c =>
      if (-lit) ∈ t.clauses.getD c [] then
        let t :=
          if t.num_of_assigned_literals_that_satisfy_a_clause.getD c 0 = 0 ∧
              t.satisfaction_map.getD c false = false then
            if c ∈ t.contradicted_clauses then
              { t with contradicted_clauses := setRemove t.contradicted_clauses c
                       unitary_clauses := setAdd t.unitary_clauses c }
            else t
          else t
        let t :=
          { t with
            num_of_unassigned_literals_in_clause :=
              t.num_of_unassigned_literals_in_clause.set c
                (t.num_of_unassigned_literals_in_clause.getD c 0 + 1) }
        if c ∈ t.unitary_clauses ∧ t.satisfaction_map.getD c false = false then
          if t.num_of_unassigned_literals_in_clause.getD c 0 > 1 then
            { t with unitary_clauses := setRemove t.unitary_clauses c }
          else t
        else t
      else t) s1

/-- TWL update_satisfaction_map with operation undo assignment. -/
def TWLSATProblem.updUndo (s : TWLSATProblem) (lits : List Int) : TWLSATProblem :=
  lits.foldl (fun t l => t.oldLiteralUnassigned l) s

/-- The middle section of TWLSATProblem.add_clause: undo the assigned literals
of the new clause, register the new clause in both literal indices, and redo
those literals. -/
def twlReplay (lits clause clause_with_twl : List Int) (newIdx : Nat)
    (s : TWLSATProblem) : TWLSATProblem :=
  let s := s.updUndo lits
  let s := clause.foldl (fun t lit =>
    { t with clauses_by_literal := cblAppend t.clauses_by_literal lit newIdx }) s
  let s := clause_with_twl.foldl (fun t lit =>
    { t with clauses_by_watched_literal :=
        cblAppend t.clauses_by_watched_literal lit newIdx }) s
  lits.foldl (fun t l => t.newLiteralAssigned l) s

/-- TWLSATProblem.add_clause: append structures for the new clause, snapshot
assignments and both sets, replay (undo then redo) the effects of the assigned
literals of the new clause, register the new clause in both literal indices,
restore the assignments dict, and restore each set from its snapshot plus the
new index when the replay left the new index in it. -/
def TWLSATProblem.addClause (s : TWLSATProblem) (clause : List Int) : TWLSATProblem :=
  let s := { s with original_clauses := s.original_clauses ++ [clause]
                    number_of_clauses := s.number_of_clauses + 1 }
  let clause_with_twl := clause.take 2
  let s := { s with clauses := s.clauses ++ [clause_with_twl]
                    satisfaction_map := s.satisfaction_map ++ [false]
                    num_of_assigned_literals_that_satisfy_a_clause :=
                      s.num_of_assigned_literals_that_satisfy_a_clause ++ [0] }
  let newIdx := s.number_of_clauses - 1
  let s :=
    if clause_with_twl.length = 1 then
      { s with unitary_clauses := setAdd s.unitary_clauses newIdx
               num_of_unassigned_literals_in_clause :=
                 s.num_of_unassigned_literals_in_clause ++ [1] }
    else
      { s with num_of_unassigned_literals_in_clause :=
                 s.num_of_unassigned_literals_in_clause ++ [2] }
  let assignments_snapshot := s.assignments
  let contradictions_snapshot := s.contradicted_clauses
  let unitary_snapshot := s.unitary_clauses
  let literals_to_unassign := clause.foldl (fun acc lit =>
    match dictGet s.assignments (pyabs lit) with
    | none => acc
    | some b => if b = decide (0 < lit) then acc ++ [lit] else acc ++ [-lit]) []
  let s := twlReplay literals_to_unassign clause clause_with_twl newIdx s
  let s := { s with assignments := assignments_snapshot }
  let newContradicted : List Nat :=
    if (s.contradicted_clauses.contains newIdx) then setAdd contradictions_snapshot newIdx
    else contradictions_snapshot
  let newUnitary : List Nat :=
    if (s.unitary_clauses.contains newIdx) then setAdd unitary_snapshot newIdx
    else unitary_snapshot
  { s with contradicted_clauses := newContradicted, unitary_clauses := newUnitary }

/-- The solver-side TWL assign: record the assignment in the dict, then run the
new-assignment update (DPLLSolver._make_decision on the first branch). -/
def twlAssign (s : TWLSATProblem) (lit : Int) : TWLSATProblem :=
  let s := { s with assignments := dictSet s.assignments (pyabs lit) (decide (0 < lit)) }
  s.newLiteralAssigned lit

/-- The solver-side TWL unassign: delete the dict entry, then run the
undo-assignment update. -/
def twlUnassign (s : TWLSATProblem) (lit : Int) : TWLSATProblem :=
  let s := { s with assignments := dictDelT s.assignments (pyabs lit) }
  s.oldLiteralUnassigned lit

/-
Solver-side mutators on the plain state: the engines write or delete the
assignments dict entry and then call update_satisfaction_map. These are the
state transitions quantified over by the invariant claims.
-/

/-- assign(lit): assignments[abs(lit)] = (lit > 0), then the new-assignment
update. -/
def assignLit (s : SATProblem) (lit : Int) : SATProblem :=
  ({ s with assignments := dictSet s.assignments (pyabs lit) (decide (0 < lit)) }
    : SATProblem).newLiteralAssigned lit

/-- unassign(lit): del assignments[abs(lit)], then the undo-assignment update
(the engines only unassign literals whose variable is present, so the total
delete coincides with the Python del). -/
def unassignLit (s : SATProblem) (lit : Int) : SATProblem :=
  ({ s with assignments := dictDelT s.assignments (pyabs lit) }
    : SATProblem).oldLiteralUnassigned lit

/-- change assignment of lit: assignments[abs(lit)] = (lit > 0), then the
change-assignment update (undo of -lit followed by new assignment of lit). -/
def changeLit (s : SATProblem) (lit : Int) : SATProblem :=
  ({ s with assignments := dictSet s.assignments (pyabs lit) (decide (0 < lit)) }
    : SATProblem).updChange lit

/-
Specification layer: brute-force re-evaluation of a clause against the
assignments dict, input validity, and reachability by solver-applied mutator
sequences from a freshly constructed state.
-/

/-- The assignment makes literal l true: its variable is assigned the value
matching the sign of l. -/
def litTrue (A : List (Int × Bool)) (l : Int) : Bool :=
  dictGet A (pyabs l) = some (decide (0 < l))

/-- The variable of literal l is unassigned. -/
def litUnassigned (A : List (Int × Bool)) (l : Int) : Bool :=
  (dictGet A (pyabs l)).isNone

/-- Number of literals of a clause made true by the assignment. -/
def cntTrue (A : List (Int × Bool)) (c : List Int) : Nat := c.countP (litTrue A)

/-- Number of literals of a clause whose variable is unassigned. -/
def cntUn (A : List (Int × Bool)) (c : List Int) : Nat := c.countP (litUnassigned A)

/-- Validity of a clause list as accepted and used by the solver: at least one
clause, and each clause nonempty, without duplicate or zero literals and
without a complementary pair. -/
def ValidClauses (cs : List (List Int)) : Prop :=
  cs ≠ [] ∧ ∀ c ∈ cs, c ≠ [] ∧ c.Nodup ∧ ∀ l ∈ c, l ≠ 0 ∧ ¬ (-l) ∈ c

instance : DecidablePred ValidClauses := fun cs => by
  unfold ValidClauses; infer_instance

/-- States reachable from a freshly constructed plain state by the mutator
sequence a solver applies: new assignment of an unassigned variable, undo
assignment of the literal currently holding, and change assignment flipping the
literal currently falsified. -/
inductive Reaches : SATProblem → Prop
  | init (cs : List (List Int)) (h : ValidClauses cs) : Reaches (SATProblem.init cs)
  | assign (s : SATProblem) (l : Int) (hs : Reaches s) (hl : l ≠ 0)
      (hfree : dictGet s.assignments (pyabs l) = none) : Reaches (assignLit s l)
  | unassign (s : SATProblem) (l : Int) (hs : Reaches s)
      (hcur : dictGet s.assignments (pyabs l) = some (decide (0 < l))) :
      Reaches (unassignLit s l)
  | change (s : SATProblem) (l : Int) (hs : Reaches s) (hl : l ≠ 0)
      (hcur : dictGet s.assignments (pyabs l) = some (!decide (0 < l))) :
      Reaches (changeLit s l)

/-
Helper lemmas about the Python primitive models.
-/

theorem dictGet_dictSet_self (d : List (Int × α)) (k : Int) (v : α) :
    dictGet (dictSet d k v) k = some v := by
  induction d with
  | nil => simp [dictSet, dictGet]
  | cons kv rest ih =>
    by_cases h : kv.1 = k
    · simp [dictSet, dictGet, h]
    · simp [dictSet, dictGet, h, ih]

theorem dictGet_dictSet_ne (d : List (Int × α)) (k k2 : Int) (v : α) (h : k2 ≠ k) :
    dictGet (dictSet d k v) k2 = dictGet d k2 := by
  have h2 : ¬ k = k2 := fun hh => h hh.symm
  induction d with
  | nil => simp [dictSet, dictGet, h2]
  | cons kv rest ih =>
    by_cases hk : kv.1 = k
    · subst hk
      simp [dictSet, dictGet, h2, fun hh : kv.1 = k2 => h2 hh]
    · by_cases hk2 : kv.1 = k2
      · subst hk2
        simp [dictSet, dictGet, hk, fun hh : kv.1 = k => hk hh]
      · simp [dictSet, dictGet, hk, hk2, ih]

theorem dictGet_dictDelT_ne (d : List (Int × α)) (k k2 : Int) (h : k2 ≠ k) :
    dictGet (dictDelT d k) k2 = dictGet d k2 := by
  have h2 : ¬ k = k2 := fun hh => h hh.symm
  induction d with
  | nil => simp [dictDelT]
  | cons kv rest ih =>
    by_cases hk : kv.1 = k
    · subst hk
      simp [dictDelT, dictGet, fun hh : kv.1 = k2 => h2 hh]
    · by_cases hk2 : kv.1 = k2
      · subst hk2
        simp [dictDelT, dictGet, hk, fun hh : kv.1 = k => hk hh]
      · simp [dictDelT, dictGet, hk, hk2, ih]

theorem dictDelT_dictSet_fresh (d : List (Int × α)) (k : Int) (v : α)
    (h : dictGet d k = none) : dictDelT (dictSet d k v) k = d := by
  induction d with
  | nil => simp [dictSet, dictDelT]
  | cons kv rest ih =>
    by_cases hk : kv.1 = k
    · simp [dictGet, hk] at h
    · simp [dictGet, hk] at h
      simp [dictSet, dictDelT, hk, ih h]

theorem dictGet_dictDelT_self (d : List (Int × α)) (k : Int)
    (h : (d.map Prod.fst).Nodup) : dictGet (dictDelT d k) k = none := by
  induction d with
  | nil => simp [dictDelT, dictGet]
  | cons kv rest ih =>
    simp only [List.map_cons, List.nodup_cons] at h
    by_cases hk : kv.1 = k
    · subst hk
      simp only [dictDelT, if_pos rfl]
      cases hg : dictGet rest kv.1 with
      | none => exact hg
      | some v =>
        exfalso
        apply h.1
        clear ih h
        induction rest with
        | nil => simp [dictGet] at hg
        | cons kv2 rest2 ih2 =>
          by_cases h2 : kv2.1 = kv.1
          · simp [h2]
          · simp only [dictGet, if_neg h2] at hg
            simp [ih2 hg]
    · simp [dictDelT, dictGet, hk, ih h.2]

theorem keys_dictSet (d : List (Int × α)) (k : Int) (v : α) :
    (dictSet d k v).map Prod.fst = if (dictGet d k).isNone
      then d.map Prod.fst ++ [k] else d.map Prod.fst := by
  induction d with
  | nil => simp [dictSet, dictGet]
  | cons kv rest ih =>
    by_cases hk : kv.1 = k
    · simp [dictSet, dictGet, hk]
    · simp only [dictSet, if_neg hk, dictGet, List.map_cons, ih]
      split <;> simp

theorem dictGet_eq_none_iff (d : List (Int × α)) (k : Int) :
    dictGet d k = none ↔ ¬ k ∈ d.map Prod.fst := by
  induction d with
  | nil => simp [dictGet]
  | cons kv rest ih =>
    by_cases hk : kv.1 = k
    · subst hk
      simp [dictGet]
    · have hk2 : ¬ k = kv.1 := fun hh => hk hh.symm
      simp [dictGet, hk, hk2, ih]

theorem keys_nodup_dictSet (d : List (Int × α)) (k : Int) (v : α)
    (h : (d.map Prod.fst).Nodup) : ((dictSet d k v).map Prod.fst).Nodup := by
  rw [keys_dictSet]
  split
  · rename_i hnone
    rw [Option.isNone_iff_eq_none] at hnone
    have hk : ¬ k ∈ d.map Prod.fst := (dictGet_eq_none_iff d k).mp hnone
    refine List.Nodup.append h (List.nodup_singleton k) ?_
    intro a ha hb
    simp at hb
    subst hb
    exact hk ha
  · exact h

theorem keys_dictDelT_sublist (d : List (Int × α)) (k : Int) :
    ((dictDelT d k).map Prod.fst).Sublist (d.map Prod.fst) := by
  induction d with
  | nil => simp [dictDelT]
  | cons kv rest ih =>
    by_cases hk : kv.1 = k
    · simp only [dictDelT, if_pos hk, List.map_cons]
      exact List.sublist_cons_self _ _
    · simp only [dictDelT, if_neg hk, List.map_cons]
      exact List.Sublist.cons₂ _ ih

theorem keys_nodup_dictDelT (d : List (Int × α)) (k : Int)
    (h : (d.map Prod.fst).Nodup) : ((dictDelT d k).map Prod.fst).Nodup :=
  (keys_dictDelT_sublist d k).nodup h

theorem mem_setAdd (s : List Nat) (i j : Nat) : j ∈ setAdd s i ↔ j ∈ s ∨ j = i := by
  unfold setAdd
  split
  · rename_i hmem
    constructor
    · exact fun h => Or.inl h
    · rintro (h | rfl)
      · exact h
      · exact hmem
  · simp

theorem nodup_setAdd (s : List Nat) (i : Nat) (h : s.Nodup) : (setAdd s i).Nodup := by
  unfold setAdd
  split
  · exact h
  · rename_i hmem
    refine List.Nodup.append h (List.nodup_singleton i) ?_
    intro a ha hb
    simp at hb
    subst hb
    exact hmem ha

theorem mem_setRemove_ne (s : List Nat) (i j : Nat) (h : j ≠ i) :
    j ∈ setRemove s i ↔ j ∈ s := by
  unfold setRemove
  constructor
  · exact fun hm => List.mem_of_mem_erase hm
  · exact fun hm => List.mem_erase_of_ne h |>.mpr hm

theorem not_mem_setRemove_self (s : List Nat) (i : Nat) (h : s.Nodup) :
    i ∉ setRemove s i := h.not_mem_erase

theorem nodup_setRemove (s : List Nat) (i : Nat) (h : s.Nodup) : (setRemove s i).Nodup :=
  h.erase i

theorem getD_set_self (l : List α) (i : Nat) (v d : α) (h : i < l.length) :
    (l.set i v).getD i d = v := by
  induction l generalizing i with
  | nil => simp at h
  | cons a rest ih =>
    cases i with
    | zero => simp
    | succ n =>
      simp only [List.set_cons_succ, List.getD_cons_succ]
      exact ih n (by simpa using h)

theorem getD_set_ne (l : List α) (i j : Nat) (v d : α) (h : j ≠ i) :
    (l.set i v).getD j d = l.getD j d := by
  induction l generalizing i j with
  | nil => simp
  | cons a rest ih =>
    cases i with
    | zero =>
      cases j with
      | zero => exact absurd rfl h
      | succ m => simp
    | succ n =>
      cases j with
      | zero => simp
      | succ m =>
        simp only [List.set_cons_succ, List.getD_cons_succ]
        exact ih n m (fun hh => h (by rw [hh]))

theorem getD_ext (l1 l2 : List α) (d : α) (hlen : l1.length = l2.length)
    (h : ∀ j, l1.getD j d = l2.getD j d) : l1 = l2 := by
  induction l1 generalizing l2 with
  | nil => cases l2 with
    | nil => rfl
    | cons b r2 => simp at hlen
  | cons a r1 ih =>
    cases l2 with
    | nil => simp at hlen
    | cons b r2 =>
      have h0 := h 0
      simp at h0
      subst h0
      congr 1
      exact ih r2 (by simpa using hlen) (fun j => by simpa using h (j + 1))

/-
Per-clause views: the five bookkeeping values a mutator step reads and writes
for one clause index. Each Python loop body is index-local, so its effect is a
pure function on views; the loops become folds of view transformers.
-/

/-- The bookkeeping of one clause: satisfaction flag, satisfying-literal count,
unassigned-literal count, unitary membership and contradicted membership. -/
@[ext] structure ClauseView where
  sat : Bool
  ns : Int
  nu : Int
  unit : Bool
  contr : Bool
deriving DecidableEq, Repr

/-- The view of state s at clause index j. -/
def viewAt (s : SATProblem) (j : Nat) : ClauseView :=
  { sat := s.satisfaction_map.getD j false
    ns := s.num_of_assigned_literals_that_satisfy_a_clause.getD j 0
    nu := s.num_of_unassigned_literals_in_clause.getD j 0
    unit := decide (j ∈ s.unitary_clauses)
    contr := decide (j ∈ s.contradicted_clauses) }

/-- View effect of newStep1. -/
def newStep1V (v : ClauseView) : ClauseView :=
  { sat := true, ns := v.ns + 1, nu := v.nu - 1, unit := false, contr := v.contr }

/-- View effect of newStep2. -/
def newStep2V (v : ClauseView) : ClauseView :=
  if v.nu - 1 = 0 ∧ v.sat = false then { v with nu := v.nu - 1, contr := true }
  else if v.nu - 1 = 1 ∧ v.sat = false then { v with nu := v.nu - 1, unit := true }
  else { v with nu := v.nu - 1 }

/-- View effect of oldStep1. -/
def oldStep1V (v : ClauseView) : ClauseView :=
  if v.ns - 1 = 0 then
    if v.nu + 1 = 1 then
      { v with nu := v.nu + 1, ns := v.ns - 1, sat := false, unit := true }
    else { v with nu := v.nu + 1, ns := v.ns - 1, sat := false }
  else { v with nu := v.nu + 1, ns := v.ns - 1 }

/-- View effect of oldStep2 (with the two sequential phases of the loop body
composed: the contradicted-to-unitary move, the increment, and the final
unitary removal when more than one literal is unassigned). -/
def oldStep2V (v : ClauseView) : ClauseView :=
  if v.ns = 0 ∧ v.sat = false ∧ v.contr = true then
    if v.nu + 1 > 1 then { v with contr := false, unit := false, nu := v.nu + 1 }
    else { v with contr := false, unit := true, nu := v.nu + 1 }
  else if v.unit = true ∧ v.sat = false ∧ v.nu + 1 > 1 then
    { v with unit := false, nu := v.nu + 1 }
  else { v with nu := v.nu + 1 }

/-- Agreement of a view with the brute-force counts of its clause: the
satisfaction flag and satisfying count match the count of true literals, the
unassigned counter matches the count of unassigned literals, the contradicted
flag is exact, and the unitary flag holds exactly for unsatisfied clauses with
at most one unassigned literal. -/
def viewOk (v : ClauseView) (ct cu : Nat) : Prop :=
  v.sat = decide (0 < ct) ∧ v.ns = (ct : Int) ∧ v.nu = (cu : Int) ∧
  v.unit = decide (ct = 0 ∧ cu ≤ 1) ∧ v.contr = decide (ct = 0 ∧ cu = 0)

theorem viewOk_newStep1V (v : ClauseView) (ct cu : Nat) (h : viewOk v ct cu)
    (hcu : 1 ≤ cu) : viewOk (newStep1V v) (ct + 1) (cu - 1) := by
  obtain ⟨h1, h2, h3, h4, h5⟩ := h
  obtain ⟨vs, vns, vnu, vu, vc⟩ := v
  simp only at h1 h2 h3 h4 h5
  subst h1
  subst h2
  subst h3
  subst h4
  subst h5
  unfold newStep1V viewOk
  dsimp only
  refine ⟨?_, ?_, ?_, ?_, ?_⟩ <;>
  first
    | omega
    | (rw [decide_eq_decide] ; omega)
    | (symm ; rw [decide_eq_true_eq] ; omega)
    | (symm ; rw [decide_eq_false_iff_not] ; omega)
    | simp

theorem viewOk_newStep2V (v : ClauseView) (ct cu : Nat) (h : viewOk v ct cu)
    (hcu : 1 ≤ cu) : viewOk (newStep2V v) ct (cu - 1) := by
  obtain ⟨h1, h2, h3, h4, h5⟩ := h
  obtain ⟨vs, vns, vnu, vu, vc⟩ := v
  simp only at h1 h2 h3 h4 h5
  subst h1
  subst h2
  subst h3
  subst h4
  subst h5
  unfold newStep2V viewOk
  dsimp only
  split_ifs <;>
    (try simp only [decide_eq_true_eq, decide_eq_false_iff_not, Bool.not_eq_true,
      and_true, true_and, and_false, false_and] at *) <;>
    and_intros <;>
    (try dsimp only) <;>
    first
      | omega
      | (rw [decide_eq_decide] ; omega)
      | (rw [decide_eq_true_eq] ; omega)
      | (rw [decide_eq_false_iff_not] ; omega)
      | (symm ; rw [decide_eq_true_eq] ; omega)
      | (symm ; rw [decide_eq_false_iff_not] ; omega)
      | (simp only [and_false, false_and, decide_False, decide_True] ; first
          | omega
          | (rw [decide_eq_decide] ; omega)
          | (rw [decide_eq_true_eq] ; omega)
          | (rw [decide_eq_false_iff_not] ; omega)
          | (symm ; rw [decide_eq_true_eq] ; omega)
          | (symm ; rw [decide_eq_false_iff_not] ; omega)
          | rfl)
      | (simp only [← Bool.decide_and] ; rw [decide_eq_decide] ; omega)
      | simp

theorem viewOk_oldStep1V (v : ClauseView) (ct cu : Nat) (h : viewOk v ct cu)
    (hct : 1 ≤ ct) : viewOk (oldStep1V v) (ct - 1) (cu + 1) := by
  obtain ⟨h1, h2, h3, h4, h5⟩ := h
  obtain ⟨vs, vns, vnu, vu, vc⟩ := v
  simp only at h1 h2 h3 h4 h5
  subst h1
  subst h2
  subst h3
  subst h4
  subst h5
  unfold oldStep1V viewOk
  dsimp only
  split_ifs <;>
    (try simp only [decide_eq_true_eq, decide_eq_false_iff_not, Bool.not_eq_true,
      and_true, true_and, and_false, false_and] at *) <;>
    and_intros <;>
    (try dsimp only) <;>
    first
      | omega
      | (rw [decide_eq_decide] ; omega)
      | (rw [decide_eq_true_eq] ; omega)
      | (rw [decide_eq_false_iff_not] ; omega)
      | (symm ; rw [decide_eq_true_eq] ; omega)
      | (symm ; rw [decide_eq_false_iff_not] ; omega)
      | (simp only [and_false, false_and, decide_False, decide_True] ; first
          | omega
          | (rw [decide_eq_decide] ; omega)
          | (rw [decide_eq_true_eq] ; omega)
          | (rw [decide_eq_false_iff_not] ; omega)
          | (symm ; rw [decide_eq_true_eq] ; omega)
          | (symm ; rw [decide_eq_false_iff_not] ; omega)
          | rfl)
      | (simp only [← Bool.decide_and] ; rw [decide_eq_decide] ; omega)
      | simp

theorem viewOk_oldStep2V (v : ClauseView) (ct cu : Nat) (h : viewOk v ct cu) :
    viewOk (oldStep2V v) ct (cu + 1) := by
  obtain ⟨h1, h2, h3, h4, h5⟩ := h
  obtain ⟨vs, vns, vnu, vu, vc⟩ := v
  simp only at h1 h2 h3 h4 h5
  subst h1
  subst h2
  subst h3
  subst h4
  subst h5
  unfold oldStep2V viewOk
  dsimp only
  split_ifs <;>
    (try simp only [decide_eq_true_eq, decide_eq_false_iff_not, Bool.not_eq_true,
      and_true, true_and, and_false, false_and] at *) <;>
    and_intros <;>
    (try dsimp only) <;>
    first
      | omega
      | (rw [decide_eq_decide] ; omega)
      | (rw [decide_eq_true_eq] ; omega)
      | (rw [decide_eq_false_iff_not] ; omega)
      | (symm ; rw [decide_eq_true_eq] ; omega)
      | (symm ; rw [decide_eq_false_iff_not] ; omega)
      | (simp only [and_false, false_and, decide_False, decide_True] ; first
          | omega
          | (rw [decide_eq_decide] ; omega)
          | (rw [decide_eq_true_eq] ; omega)
          | (rw [decide_eq_false_iff_not] ; omega)
          | (symm ; rw [decide_eq_true_eq] ; omega)
          | (symm ; rw [decide_eq_false_iff_not] ; omega)
          | rfl)
      | (simp only [← Bool.decide_and] ; rw [decide_eq_decide] ; omega)
      | simp

theorem viewOk_changePos (v : ClauseView) (ct cu : Nat) (h : viewOk v ct cu) :
    viewOk (newStep1V (oldStep2V v)) (ct + 1) cu := by
  obtain ⟨h1, h2, h3, h4, h5⟩ := h
  obtain ⟨vs, vns, vnu, vu, vc⟩ := v
  simp only at h1 h2 h3 h4 h5
  subst h1
  subst h2
  subst h3
  subst h4
  subst h5
  unfold oldStep2V newStep1V viewOk
  dsimp only
  split_ifs <;>
    (try simp only [decide_eq_true_eq, decide_eq_false_iff_not, Bool.not_eq_true,
      and_true, true_and, and_false, false_and] at *) <;>
    and_intros <;>
    (try dsimp only) <;>
    first
      | omega
      | (rw [decide_eq_decide] ; omega)
      | (rw [decide_eq_true_eq] ; omega)
      | (rw [decide_eq_false_iff_not] ; omega)
      | (symm ; rw [decide_eq_true_eq] ; omega)
      | (symm ; rw [decide_eq_false_iff_not] ; omega)
      | (simp only [and_false, false_and, decide_False, decide_True] ; first
          | omega
          | (rw [decide_eq_decide] ; omega)
          | (rw [decide_eq_true_eq] ; omega)
          | (rw [decide_eq_false_iff_not] ; omega)
          | (symm ; rw [decide_eq_true_eq] ; omega)
          | (symm ; rw [decide_eq_false_iff_not] ; omega)
          | rfl)
      | (simp only [← Bool.decide_and] ; rw [decide_eq_decide] ; omega)
      | simp

theorem viewOk_changeNeg (v : ClauseView) (ct cu : Nat) (h : viewOk v ct cu)
    (hct : 1 ≤ ct) : viewOk (newStep2V (oldStep1V v)) (ct - 1) cu := by
  obtain ⟨h1, h2, h3, h4, h5⟩ := h
  obtain ⟨vs, vns, vnu, vu, vc⟩ := v
  simp only at h1 h2 h3 h4 h5
  subst h1
  subst h2
  subst h3
  subst h4
  subst h5
  unfold oldStep1V newStep2V viewOk
  dsimp only
  split_ifs <;>
    (try simp only [decide_eq_true_eq, decide_eq_false_iff_not, Bool.not_eq_true,
      and_true, true_and, and_false, false_and] at *) <;>
    and_intros <;>
    (try dsimp only) <;>
    first
      | omega
      | (rw [decide_eq_decide] ; omega)
      | (rw [decide_eq_true_eq] ; omega)
      | (rw [decide_eq_false_iff_not] ; omega)
      | (symm ; rw [decide_eq_true_eq] ; omega)
      | (symm ; rw [decide_eq_false_iff_not] ; omega)
      | (simp only [and_false, false_and, decide_False, decide_True] ; first
          | omega
          | (rw [decide_eq_decide] ; omega)
          | (rw [decide_eq_true_eq] ; omega)
          | (rw [decide_eq_false_iff_not] ; omega)
          | (symm ; rw [decide_eq_true_eq] ; omega)
          | (symm ; rw [decide_eq_false_iff_not] ; omega)
          | rfl)
      | (simp only [← Bool.decide_and] ; rw [decide_eq_decide] ; omega)
      | simp

theorem roundTrip_pos (v : ClauseView) (ct cu : Nat) (h : viewOk v ct cu)
    (hcu : 1 ≤ cu) : oldStep1V (newStep1V v) = v := by
  obtain ⟨h1, h2, h3, h4, h5⟩ := h
  obtain ⟨vs, vns, vnu, vu, vc⟩ := v
  simp only at h1 h2 h3 h4 h5
  subst h1
  subst h2
  subst h3
  subst h4
  subst h5
  unfold oldStep1V newStep1V
  dsimp only
  split_ifs <;>
    (try simp only [decide_eq_true_eq, decide_eq_false_iff_not, Bool.not_eq_true,
      and_true, true_and, and_false, false_and] at *) <;>
    ext <;>
    (try dsimp only) <;>
    first
      | omega
      | (rw [decide_eq_decide] ; omega)
      | (rw [decide_eq_true_eq] ; omega)
      | (rw [decide_eq_false_iff_not] ; omega)
      | (symm ; rw [decide_eq_true_eq] ; omega)
      | (symm ; rw [decide_eq_false_iff_not] ; omega)
      | (simp only [and_false, false_and, decide_False, decide_True] ; first
          | omega
          | (rw [decide_eq_decide] ; omega)
          | (rw [decide_eq_true_eq] ; omega)
          | (rw [decide_eq_false_iff_not] ; omega)
          | (symm ; rw [decide_eq_true_eq] ; omega)
          | (symm ; rw [decide_eq_false_iff_not] ; omega)
          | rfl)
      | (simp only [← Bool.decide_and] ; rw [decide_eq_decide] ; omega)
      | simp

/-- The clause-index occurrence list of a literal (empty when the literal has
no dict entry, matching the guarded Python accesses). -/
def cblOf (s : SATProblem) (l : Int) : List Nat :=
  (dictGet s.clauses_by_literal l).getD []

/-- The parts of the state a mutator loop body never changes: clause lists,
assignments, the literal index, and the lengths of the indexed lists. -/
def FrameEq (a b : SATProblem) : Prop :=
  a.clauses = b.clauses ∧ a.assignments = b.assignments ∧
  a.clauses_by_literal = b.clauses_by_literal ∧
  a.satisfaction_map.length = b.satisfaction_map.length ∧
  a.num_of_assigned_literals_that_satisfy_a_clause.length =
    b.num_of_assigned_literals_that_satisfy_a_clause.length ∧
  a.num_of_unassigned_literals_in_clause.length =
    b.num_of_unassigned_literals_in_clause.length

/-- The unitary and contradicted sets hold no duplicates. -/
def SetsNodup (s : SATProblem) : Prop :=
  s.unitary_clauses.Nodup ∧ s.contradicted_clauses.Nodup

theorem frameEq_refl (s : SATProblem) : FrameEq s s :=
  ⟨rfl, rfl, rfl, rfl, rfl, rfl⟩

theorem frameEq_trans {a b c : SATProblem} (h1 : FrameEq a b) (h2 : FrameEq b c) :
    FrameEq a c := by
  obtain ⟨a1, a2, a3, a4, a5, a6⟩ := h1
  obtain ⟨b1, b2, b3, b4, b5, b6⟩ := h2
  exact ⟨a1.trans b1, a2.trans b2, a3.trans b3, a4.trans b4, a5.trans b5, a6.trans b6⟩

theorem roundTrip_neg (v : ClauseView) (ct cu : Nat) (h : viewOk v ct cu)
    (hcu : 1 ≤ cu) : oldStep2V (newStep2V v) = v := by
  obtain ⟨h1, h2, h3, h4, h5⟩ := h
  obtain ⟨vs, vns, vnu, vu, vc⟩ := v
  simp only at h1 h2 h3 h4 h5
  subst h1
  subst h2
  subst h3
  subst h4
  subst h5
  unfold oldStep2V newStep2V
  dsimp only
  split_ifs <;>
    (try simp only [decide_eq_true_eq, decide_eq_false_iff_not, Bool.not_eq_true,
      and_true, true_and, and_false, false_and] at *) <;>
    ext <;>
    (try dsimp only) <;>
    first
      | omega
      | (rw [decide_eq_decide] ; omega)
      | (rw [decide_eq_true_eq] ; omega)
      | (rw [decide_eq_false_iff_not] ; omega)
      | (symm ; rw [decide_eq_true_eq] ; omega)
      | (symm ; rw [decide_eq_false_iff_not] ; omega)
      | (simp only [and_false, false_and, decide_False, decide_True] ; first
          | omega
          | (rw [decide_eq_decide] ; omega)
          | (rw [decide_eq_true_eq] ; omega)
          | (rw [decide_eq_false_iff_not] ; omega)
          | (symm ; rw [decide_eq_true_eq] ; omega)
          | (symm ; rw [decide_eq_false_iff_not] ; omega)
          | rfl)
      | (simp only [← Bool.decide_and] ; rw [decide_eq_decide] ; omega)
      | simp

/-
Step-level characterizations: each loop body is index-local.
-/

theorem getD_set_self2 (l : List α) (i : Nat) (v d : α) (h : i < l.length) :
    (l.set i v)[i]?.getD d = v := by
  rw [← List.getD_eq_getElem?_getD]
  exact getD_set_self l i v d h

theorem getD_set_ne2 (l : List α) (i j : Nat) (v d : α) (h : j ≠ i) :
    (l.set i v)[j]?.getD d = l[j]?.getD d := by
  rw [← List.getD_eq_getElem?_getD, ← List.getD_eq_getElem?_getD]
  exact getD_set_ne l i j v d h

theorem newStep1_frame (t : SATProblem) (c : Nat) : FrameEq (newStep1 t c) t := by
  unfold newStep1
  dsimp only
  split <;> exact ⟨rfl, rfl, rfl, by simp, by simp, by simp⟩

theorem newStep1_nodup (t : SATProblem) (c : Nat) (h : SetsNodup t) :
    SetsNodup (newStep1 t c) := by
  unfold newStep1
  dsimp only
  split
  · exact ⟨nodup_setRemove _ _ h.1, h.2⟩
  · exact h

theorem newStep1_view_self (t : SATProblem) (c : Nat) (hnd : SetsNodup t)
    (h1 : c < t.satisfaction_map.length)
    (h2 : c < t.num_of_assigned_literals_that_satisfy_a_clause.length)
    (h3 : c < t.num_of_unassigned_literals_in_clause.length) :
    viewAt (newStep1 t c) c = newStep1V (viewAt t c) := by
  unfold newStep1 newStep1V viewAt
  dsimp only
  split
  · rename_i hmem
    dsimp only at hmem ⊢
    rw [getD_set_self _ _ _ _ h1, getD_set_self _ _ _ _ h2, getD_set_self _ _ _ _ h3]
    have hu : ¬ c ∈ setRemove t.unitary_clauses c := not_mem_setRemove_self _ _ hnd.1
    simp [hu]
  · rename_i hmem
    dsimp only at hmem ⊢
    rw [getD_set_self _ _ _ _ h1, getD_set_self _ _ _ _ h2, getD_set_self _ _ _ _ h3]
    simp [hmem]

theorem newStep1_view_other (t : SATProblem) (c j : Nat) (hj : j ≠ c) :
    viewAt (newStep1 t c) j = viewAt t j := by
  unfold newStep1 viewAt
  dsimp only
  split
  · rename_i hmem
    dsimp only at hmem ⊢
    rw [getD_set_ne _ _ _ _ _ hj, getD_set_ne _ _ _ _ _ hj, getD_set_ne _ _ _ _ _ hj]
    simp [mem_setRemove_ne _ _ _ hj]
  · rename_i hmem
    dsimp only at hmem ⊢
    rw [getD_set_ne _ _ _ _ _ hj, getD_set_ne _ _ _ _ _ hj, getD_set_ne _ _ _ _ _ hj]

theorem newStep2_frame (t : SATProblem) (c : Nat) : FrameEq (newStep2 t c) t := by
  unfold newStep2
  dsimp only
  split_ifs <;> exact ⟨rfl, rfl, rfl, by simp, by simp, by simp⟩

theorem newStep2_nodup (t : SATProblem) (c : Nat) (h : SetsNodup t) :
    SetsNodup (newStep2 t c) := by
  unfold newStep2
  dsimp only
  split_ifs
  · exact ⟨h.1, nodup_setAdd _ _ h.2⟩
  · exact ⟨nodup_setAdd _ _ h.1, h.2⟩
  · exact h

theorem newStep2_view_self (t : SATProblem) (c : Nat)
    (h3 : c < t.num_of_unassigned_literals_in_clause.length) :
    viewAt (newStep2 t c) c = newStep2V (viewAt t c) := by
  unfold newStep2 newStep2V viewAt
  dsimp only
  rw [getD_set_self _ _ _ _ h3]
  split_ifs <;> simp [mem_setAdd, getD_set_self2 _ _ _ _ h3]

theorem newStep2_view_other (t : SATProblem) (c j : Nat) (hj : j ≠ c) :
    viewAt (newStep2 t c) j = viewAt t j := by
  unfold newStep2 viewAt
  dsimp only
  split_ifs <;>
    rw [getD_set_ne _ _ _ _ _ hj] <;>
    simp [mem_setAdd, hj, getD_set_ne2 _ _ _ _ _ hj]

theorem oldStep1_frame (t : SATProblem) (c : Nat) : FrameEq (oldStep1 t c) t := by
  unfold oldStep1
  dsimp only
  split_ifs <;> exact ⟨rfl, rfl, rfl, by simp, by simp, by simp⟩

theorem oldStep1_nodup (t : SATProblem) (c : Nat) (h : SetsNodup t) :
    SetsNodup (oldStep1 t c) := by
  unfold oldStep1
  dsimp only
  split_ifs
  · exact ⟨nodup_setAdd _ _ h.1, h.2⟩
  · exact h
  · exact h

theorem oldStep1_view_self (t : SATProblem) (c : Nat)
    (h1 : c < t.satisfaction_map.length)
    (h2 : c < t.num_of_assigned_literals_that_satisfy_a_clause.length)
    (h3 : c < t.num_of_unassigned_literals_in_clause.length) :
    viewAt (oldStep1 t c) c = oldStep1V (viewAt t c) := by
  unfold oldStep1 oldStep1V viewAt
  dsimp only
  rw [getD_set_self _ _ _ _ h2, getD_set_self _ _ _ _ h3]
  split_ifs <;>
    first
      | (rw [getD_set_self _ _ _ _ h1] ;
         simp [mem_setAdd, getD_set_self2 _ _ _ _ h1, getD_set_self2 _ _ _ _ h2,
           getD_set_self2 _ _ _ _ h3])
      | simp [mem_setAdd, getD_set_self2 _ _ _ _ h2, getD_set_self2 _ _ _ _ h3]

theorem oldStep1_view_other (t : SATProblem) (c j : Nat) (hj : j ≠ c) :
    viewAt (oldStep1 t c) j = viewAt t j := by
  unfold oldStep1 viewAt
  dsimp only
  split_ifs <;>
    rw [getD_set_ne _ _ _ _ _ hj, getD_set_ne _ _ _ _ _ hj] <;>
    first
      | (rw [getD_set_ne _ _ _ _ _ hj] ;
         simp [mem_setAdd, hj, getD_set_ne2 _ _ _ _ _ hj])
      | simp [mem_setAdd, hj, getD_set_ne2 _ _ _ _ _ hj]

theorem oldStep2_frame (t : SATProblem) (c : Nat) : FrameEq (oldStep2 t c) t := by
  unfold oldStep2
  dsimp only
  split_ifs <;> exact ⟨rfl, rfl, rfl, by simp, by simp, by simp⟩

theorem oldStep2_nodup (t : SATProblem) (c : Nat) (h : SetsNodup t) :
    SetsNodup (oldStep2 t c) := by
  unfold oldStep2
  dsimp only
  split_ifs <;>
    first
      | exact ⟨nodup_setRemove _ _ (nodup_setAdd _ _ h.1), nodup_setRemove _ _ h.2⟩
      | exact ⟨nodup_setAdd _ _ h.1, nodup_setRemove _ _ h.2⟩
      | exact ⟨nodup_setRemove _ _ h.1, h.2⟩
      | exact h

set_option maxHeartbeats 1000000 in
theorem oldStep2_view_self (t : SATProblem) (c : Nat) (hnd : SetsNodup t)
    (h3 : c < t.num_of_unassigned_literals_in_clause.length) :
    viewAt (oldStep2 t c) c = oldStep2V (viewAt t c) := by
  have hadd : (setAdd t.unitary_clauses c).Nodup := nodup_setAdd _ _ hnd.1
  by_cases hns : t.num_of_assigned_literals_that_satisfy_a_clause[c]?.getD 0 = 0 <;>
  by_cases hsat : t.satisfaction_map[c]?.getD false = false <;>
  by_cases hcontr : c ∈ t.contradicted_clauses <;>
  by_cases hunit : c ∈ t.unitary_clauses <;>
  by_cases hnu : t.num_of_unassigned_literals_in_clause[c]?.getD 0 + 1 > 1 <;>
  simp [oldStep2, oldStep2V, viewAt, hns, hsat, hcontr, hunit, hnu, mem_setAdd,
    not_mem_setRemove_self _ _ hnd.1, not_mem_setRemove_self _ _ hnd.2,
    not_mem_setRemove_self _ _ hadd, getD_set_self2 _ _ _ _ h3]

theorem oldStep2_view_other (t : SATProblem) (c j : Nat) (hj : j ≠ c) :
    viewAt (oldStep2 t c) j = viewAt t j := by
  unfold oldStep2 viewAt
  dsimp only
  split_ifs <;>
    rw [getD_set_ne _ _ _ _ _ hj] <;>
    simp [mem_setAdd, mem_setRemove_ne, hj, getD_set_ne2 _ _ _ _ _ hj]

/-- The in-range condition a loop body needs at one clause index. -/
def InRange (s : SATProblem) (c : Nat) : Prop :=
  c < s.satisfaction_map.length ∧
  c < s.num_of_assigned_literals_that_satisfy_a_clause.length ∧
  c < s.num_of_unassigned_literals_in_clause.length

theorem inRange_of_frameEq {a b : SATProblem} (h : FrameEq a b) (c : Nat)
    (hc : InRange b c) : InRange a c := by
  obtain ⟨_, _, _, h4, h5, h6⟩ := h
  exact ⟨h4 ▸ hc.1, h5 ▸ hc.2.1, h6 ▸ hc.2.2⟩

/-- Folding an index-local loop body over a duplicate-free index list: the frame
is preserved, views at untouched indices are unchanged, and the view at each
touched index is transformed once. -/
theorem foldl_viewLocal (f : SATProblem → Nat → SATProblem) (fV : ClauseView → ClauseView)
    (hframe : ∀ t c, FrameEq (f t c) t)
    (hnodup : ∀ t c, SetsNodup t → SetsNodup (f t c))
    (hself : ∀ t c, SetsNodup t → InRange t c → viewAt (f t c) c = fV (viewAt t c))
    (hother : ∀ t c j, j ≠ c → viewAt (f t c) j = viewAt t j) :
    ∀ (idxs : List Nat) (s : SATProblem), idxs.Nodup → SetsNodup s →
      (∀ c ∈ idxs, InRange s c) →
      FrameEq (idxs.foldl f s) s ∧ SetsNodup (idxs.foldl f s) ∧
      (∀ j, j ∉ idxs → viewAt (idxs.foldl f s) j = viewAt s j) ∧
      (∀ j ∈ idxs, viewAt (idxs.foldl f s) j = fV (viewAt s j)) := by
  intro idxs
  induction idxs with
  | nil =>
    intro s _ hnd _
    refine ⟨frameEq_refl s, hnd, fun j _ => rfl, fun j hj => absurd hj (by simp)⟩
  | cons c rest ih =>
    intro s hcr hnd hin
    have hndc := List.nodup_cons.mp hcr
    have hstep := hframe s c
    have hrange : ∀ d ∈ rest, InRange (f s c) d := fun d hd =>
      inRange_of_frameEq hstep d (hin d (List.mem_cons_of_mem c hd))
    have key := ih (f s c) hndc.2 (hnodup s c hnd) hrange
    have hfold : (c :: rest).foldl f s = rest.foldl f (f s c) := rfl
    rw [hfold]
    refine ⟨frameEq_trans key.1 hstep, key.2.1, ?_, ?_⟩
    · intro j hj
      have hj1 : j ∉ rest := fun h => hj (List.mem_cons_of_mem c h)
      have hj2 : j ≠ c := fun h => hj (h ▸ List.mem_cons_self c rest)
      rw [key.2.2.1 j hj1, hother s c j hj2]
    · intro j hj
      rcases List.mem_cons.mp hj with hj0 | hjr
      · subst hj0
        rw [key.2.2.1 j hndc.1, hself s j hnd (hin j (List.mem_cons_self j rest))]
      · have hj2 : j ≠ c := fun h => hndc.1 (h ▸ hjr)
        rw [key.2.2.2 j hjr, hother s c j hj2]

/-
Counting lemmas: how the per-clause counts of true and unassigned literals
change when one variable enters, leaves or flips in the assignments dict.
-/

theorem countP_congr2 (p q : Int → Bool) (c : List Int)
    (h : ∀ x ∈ c, q x = p x) : c.countP q = c.countP p := by
  induction c with
  | nil => rfl
  | cons b rest ih =>
    have hb := h b (List.mem_cons_self b rest)
    have hr := ih (fun x hx => h x (List.mem_cons_of_mem b hx))
    simp [List.countP_cons, hb, hr]

theorem countP_flip (p q : Int → Bool) (c : List Int) (a : Int) (ha : a ∈ c)
    (hnd : c.Nodup) (hagree : ∀ x ∈ c, x ≠ a → q x = p x) :
    c.countP q + (if p a then 1 else 0) = c.countP p + (if q a then 1 else 0) := by
  induction c with
  | nil => simp at ha
  | cons b rest ih =>
    have hndr := List.nodup_cons.mp hnd
    rcases List.mem_cons.mp ha with hb | har
    · subst hb
      have hcongr : rest.countP q = rest.countP p :=
        countP_congr2 p q rest (fun x hx =>
          hagree x (List.mem_cons_of_mem a hx) (fun h => hndr.1 (h ▸ hx)))
      simp only [List.countP_cons, hcongr]
      split_ifs <;> omega
    · have hb : b ≠ a := fun h => hndr.1 (h ▸ har)
      have hqb : q b = p b := hagree b (List.mem_cons_self b rest) hb
      have := ih har hndr.2 (fun x hx hxa => hagree x (List.mem_cons_of_mem b hx) hxa)
      simp only [List.countP_cons, hqb]
      split_ifs at this ⊢ <;> omega

theorem countP_incr (p q : Int → Bool) (c : List Int) (a : Int) (ha : a ∈ c)
    (hnd : c.Nodup) (hagree : ∀ x ∈ c, x ≠ a → q x = p x)
    (hpa : p a = false) (hqa : q a = true) : c.countP q = c.countP p + 1 := by
  have := countP_flip p q c a ha hnd hagree
  rw [hpa, hqa] at this
  simpa using this

theorem countP_keep (p q : Int → Bool) (c : List Int) (a : Int) (ha : a ∈ c)
    (hnd : c.Nodup) (hagree : ∀ x ∈ c, x ≠ a → q x = p x)
    (hpq : q a = p a) : c.countP q = c.countP p := by
  have := countP_flip p q c a ha hnd hagree
  rw [hpq] at this
  omega

theorem pyabs_neg (l : Int) : pyabs (-l) = pyabs l := by
  simp [pyabs]

theorem pyabs_eq_iff (x l : Int) : pyabs x = pyabs l ↔ x = l ∨ x = -l := by
  unfold pyabs
  constructor
  · intro h
    have : x.natAbs = l.natAbs := Int.ofNat_inj.mp h
    exact Int.natAbs_eq_natAbs_iff.mp this
  · rintro (rfl | rfl)
    · rfl
    · simp

theorem decide_pos_neg (l : Int) (hl : l ≠ 0) : decide (0 < -l) = !decide (0 < l) := by
  by_cases h : 0 < l
  · simp only [h, decide_True, Bool.not_true, decide_eq_false_iff_not]
    omega
  · simp only [h, decide_False, Bool.not_false, decide_eq_true_eq]
    omega

theorem litTrue_set_other (A : List (Int × Bool)) (k : Int) (v : Bool) (x : Int)
    (h : pyabs x ≠ k) : litTrue (dictSet A k v) x = litTrue A x := by
  unfold litTrue
  rw [dictGet_dictSet_ne _ _ _ _ h]

theorem litUnassigned_set_other (A : List (Int × Bool)) (k : Int) (v : Bool) (x : Int)
    (h : pyabs x ≠ k) : litUnassigned (dictSet A k v) x = litUnassigned A x := by
  unfold litUnassigned
  rw [dictGet_dictSet_ne _ _ _ _ h]

theorem litTrue_delT_other (A : List (Int × Bool)) (k : Int) (x : Int)
    (h : pyabs x ≠ k) : litTrue (dictDelT A k) x = litTrue A x := by
  unfold litTrue
  rw [dictGet_dictDelT_ne _ _ _ h]

theorem litUnassigned_delT_other (A : List (Int × Bool)) (k : Int) (x : Int)
    (h : pyabs x ≠ k) : litUnassigned (dictDelT A k) x = litUnassigned A x := by
  unfold litUnassigned
  rw [dictGet_dictDelT_ne _ _ _ h]

theorem litTrue_set_self (A : List (Int × Bool)) (l : Int) :
    litTrue (dictSet A (pyabs l) (decide (0 < l))) l = true := by
  simp [litTrue, dictGet_dictSet_self]

theorem litTrue_set_self_neg (A : List (Int × Bool)) (l : Int) (hl : l ≠ 0) :
    litTrue (dictSet A (pyabs l) (decide (0 < l))) (-l) = false := by
  unfold litTrue
  rw [pyabs_neg, dictGet_dictSet_self, decide_pos_neg l hl]
  generalize decide (0 < l) = b
  cases b <;> rfl

theorem litUnassigned_set_self (A : List (Int × Bool)) (l x : Int)
    (hx : pyabs x = pyabs l) (v : Bool) :
    litUnassigned (dictSet A (pyabs l) v) x = false := by
  simp [litUnassigned, hx, dictGet_dictSet_self]

theorem litUnassigned_delT_self (A : List (Int × Bool)) (l x : Int)
    (hx : pyabs x = pyabs l) (hnd : (A.map Prod.fst).Nodup) :
    litUnassigned (dictDelT A (pyabs l)) x = true := by
  simp [litUnassigned, hx, dictGet_dictDelT_self _ _ hnd]

theorem litTrue_delT_self (A : List (Int × Bool)) (l x : Int)
    (hx : pyabs x = pyabs l) (hnd : (A.map Prod.fst).Nodup) :
    litTrue (dictDelT A (pyabs l)) x = false := by
  simp [litTrue, hx, dictGet_dictDelT_self _ _ hnd]

theorem litTrue_none (A : List (Int × Bool)) (l x : Int) (hx : pyabs x = pyabs l)
    (hfree : dictGet A (pyabs l) = none) : litTrue A x = false := by
  simp [litTrue, hx, hfree]

theorem litUnassigned_none (A : List (Int × Bool)) (l x : Int) (hx : pyabs x = pyabs l)
    (hfree : dictGet A (pyabs l) = none) : litUnassigned A x = true := by
  simp [litUnassigned, hx, hfree]

theorem litTrue_cur_pos (A : List (Int × Bool)) (l : Int)
    (hcur : dictGet A (pyabs l) = some (decide (0 < l))) : litTrue A l = true := by
  simp [litTrue, hcur]

theorem litTrue_cur_neg (A : List (Int × Bool)) (l : Int) (hl : l ≠ 0)
    (hcur : dictGet A (pyabs l) = some (decide (0 < l))) : litTrue A (-l) = false := by
  unfold litTrue
  rw [pyabs_neg, hcur, decide_pos_neg l hl]
  generalize decide (0 < l) = b
  cases b <;> rfl

theorem litUnassigned_cur (A : List (Int × Bool)) (l x : Int) (b : Bool)
    (hx : pyabs x = pyabs l)
    (hcur : dictGet A (pyabs l) = some b) : litUnassigned A x = false := by
  simp [litUnassigned, hx, hcur]

theorem litTrue_cur_flipped (A : List (Int × Bool)) (l : Int) (hl : l ≠ 0)
    (hcur : dictGet A (pyabs l) = some (!decide (0 < l))) :
    litTrue A l = false ∧ litTrue A (-l) = true := by
  constructor
  · unfold litTrue
    rw [hcur]
    generalize decide (0 < l) = b
    cases b <;> rfl
  · unfold litTrue
    rw [pyabs_neg, hcur, decide_pos_neg l hl]
    generalize decide (0 < l) = b
    cases b <;> rfl

/-
Clause-count transitions for the three assignment-dict operations.
x is the literal of the clause whose variable is touched.
-/

theorem cntTrue_set_incr (A : List (Int × Bool)) (c : List Int) (l : Int)
    (hmem : l ∈ c) (hnd : c.Nodup) (hother : ∀ y ∈ c, y ≠ l → pyabs y ≠ pyabs l)
    (hfalse : litTrue A l = false) :
    cntTrue (dictSet A (pyabs l) (decide (0 < l))) c = cntTrue A c + 1 :=
  countP_incr (litTrue A) (litTrue (dictSet A (pyabs l) (decide (0 < l)))) c l hmem hnd
    (fun x hx hxl => litTrue_set_other A (pyabs l) _ x (hother x hx hxl))
    hfalse (litTrue_set_self A l)

theorem cntTrue_set_decr_neg (A : List (Int × Bool)) (c : List Int) (l : Int)
    (hl : l ≠ 0) (hmem : (-l) ∈ c) (hnd : c.Nodup)
    (hother : ∀ y ∈ c, y ≠ -l → pyabs y ≠ pyabs l)
    (htrue : litTrue A (-l) = true) :
    cntTrue A c = cntTrue (dictSet A (pyabs l) (decide (0 < l))) c + 1 :=
  countP_incr (litTrue (dictSet A (pyabs l) (decide (0 < l)))) (litTrue A) c (-l) hmem hnd
    (fun x hx hxl => (litTrue_set_other A (pyabs l) _ x (hother x hx hxl)).symm)
    (litTrue_set_self_neg A l hl) htrue

theorem cntTrue_set_keep_neg (A : List (Int × Bool)) (c : List Int) (l : Int)
    (hl : l ≠ 0) (hmem : (-l) ∈ c) (hnd : c.Nodup)
    (hother : ∀ y ∈ c, y ≠ -l → pyabs y ≠ pyabs l)
    (hfalse : litTrue A (-l) = false) :
    cntTrue (dictSet A (pyabs l) (decide (0 < l))) c = cntTrue A c :=
  countP_keep (litTrue A) (litTrue (dictSet A (pyabs l) (decide (0 < l)))) c (-l) hmem hnd
    (fun x hx hxl => litTrue_set_other A (pyabs l) _ x (hother x hx hxl))
    ((litTrue_set_self_neg A l hl).trans hfalse.symm)

theorem cntTrue_set_skip (A : List (Int × Bool)) (c : List Int) (l : Int) (v : Bool)
    (hother : ∀ y ∈ c, pyabs y ≠ pyabs l) :
    cntTrue (dictSet A (pyabs l) v) c = cntTrue A c :=
  countP_congr2 (litTrue A) (litTrue (dictSet A (pyabs l) v)) c
    (fun x hx => litTrue_set_other A (pyabs l) v x (hother x hx))

theorem cntUn_set_decr (A : List (Int × Bool)) (c : List Int) (l x : Int) (v : Bool)
    (hx : pyabs x = pyabs l) (hmem : x ∈ c) (hnd : c.Nodup)
    (hother : ∀ y ∈ c, y ≠ x → pyabs y ≠ pyabs l)
    (hun : litUnassigned A x = true) :
    cntUn A c = cntUn (dictSet A (pyabs l) v) c + 1 :=
  countP_incr (litUnassigned (dictSet A (pyabs l) v)) (litUnassigned A) c x hmem hnd
    (fun y hy hyl => (litUnassigned_set_other A (pyabs l) v y (hother y hy hyl)).symm)
    (litUnassigned_set_self A l x hx v) hun

theorem cntUn_set_keep (A : List (Int × Bool)) (c : List Int) (l x : Int) (v : Bool)
    (hx : pyabs x = pyabs l) (hmem : x ∈ c) (hnd : c.Nodup)
    (hother : ∀ y ∈ c, y ≠ x → pyabs y ≠ pyabs l)
    (hasn : litUnassigned A x = false) :
    cntUn (dictSet A (pyabs l) v) c = cntUn A c :=
  countP_keep (litUnassigned A) (litUnassigned (dictSet A (pyabs l) v)) c x hmem hnd
    (fun y hy hyl => litUnassigned_set_other A (pyabs l) v y (hother y hy hyl))
    ((litUnassigned_set_self A l x hx v).trans hasn.symm)

theorem cntUn_set_skip (A : List (Int × Bool)) (c : List Int) (l : Int) (v : Bool)
    (hother : ∀ y ∈ c, pyabs y ≠ pyabs l) :
    cntUn (dictSet A (pyabs l) v) c = cntUn A c :=
  countP_congr2 (litUnassigned A) (litUnassigned (dictSet A (pyabs l) v)) c
    (fun x hx => litUnassigned_set_other A (pyabs l) v x (hother x hx))

theorem cntTrue_delT_decr (A : List (Int × Bool)) (c : List Int) (l x : Int)
    (hx : pyabs x = pyabs l) (hmem : x ∈ c) (hnd : c.Nodup)
    (hknd : (A.map Prod.fst).Nodup)
    (hother : ∀ y ∈ c, y ≠ x → pyabs y ≠ pyabs l)
    (htrue : litTrue A x = true) :
    cntTrue A c = cntTrue (dictDelT A (pyabs l)) c + 1 :=
  countP_incr (litTrue (dictDelT A (pyabs l))) (litTrue A) c x hmem hnd
    (fun y hy hyl => (litTrue_delT_other A (pyabs l) y (hother y hy hyl)).symm)
    (litTrue_delT_self A l x hx hknd) htrue

theorem cntTrue_delT_keep (A : List (Int × Bool)) (c : List Int) (l x : Int)
    (hx : pyabs x = pyabs l) (hmem : x ∈ c) (hnd : c.Nodup)
    (hknd : (A.map Prod.fst).Nodup)
    (hother : ∀ y ∈ c, y ≠ x → pyabs y ≠ pyabs l)
    (hfalse : litTrue A x = false) :
    cntTrue (dictDelT A (pyabs l)) c = cntTrue A c :=
  countP_keep (litTrue A) (litTrue (dictDelT A (pyabs l))) c x hmem hnd
    (fun y hy hyl => litTrue_delT_other A (pyabs l) y (hother y hy hyl))
    ((litTrue_delT_self A l x hx hknd).trans hfalse.symm)

theorem cntTrue_delT_skip (A : List (Int × Bool)) (c : List Int) (l : Int)
    (hother : ∀ y ∈ c, pyabs y ≠ pyabs l) :
    cntTrue (dictDelT A (pyabs l)) c = cntTrue A c :=
  countP_congr2 (litTrue A) (litTrue (dictDelT A (pyabs l))) c
    (fun x hx => litTrue_delT_other A (pyabs l) x (hother x hx))

theorem cntUn_delT_incr (A : List (Int × Bool)) (c : List Int) (l x : Int)
    (hx : pyabs x = pyabs l) (hmem : x ∈ c) (hnd : c.Nodup)
    (hknd : (A.map Prod.fst).Nodup)
    (hother : ∀ y ∈ c, y ≠ x → pyabs y ≠ pyabs l)
    (hasn : litUnassigned A x = false) :
    cntUn (dictDelT A (pyabs l)) c = cntUn A c + 1 :=
  countP_incr (litUnassigned A) (litUnassigned (dictDelT A (pyabs l))) c x hmem hnd
    (fun y hy hyl => litUnassigned_delT_other A (pyabs l) y (hother y hy hyl))
    hasn (litUnassigned_delT_self A l x hx hknd)

theorem cntUn_delT_skip (A : List (Int × Bool)) (c : List Int) (l : Int)
    (hother : ∀ y ∈ c, pyabs y ≠ pyabs l) :
    cntUn (dictDelT A (pyabs l)) c = cntUn A c :=
  countP_congr2 (litUnassigned A) (litUnassigned (dictDelT A (pyabs l))) c
    (fun x hx => litUnassigned_delT_other A (pyabs l) x (hother x hx))

/-
The two assignment-update mutators written as folds over occurrence lists.
-/

theorem newLiteralAssigned_eq (s : SATProblem) (lit : Int) :
    s.newLiteralAssigned lit =
      (cblOf ((cblOf s lit).foldl newStep1 s) (-lit)).foldl newStep2
        ((cblOf s lit).foldl newStep1 s) := by
  unfold SATProblem.newLiteralAssigned cblOf
  cases h1 : dictGet s.clauses_by_literal lit with
  | none =>
    simp only [h1, Option.getD_none, List.foldl_nil]
    cases h2 : dictGet s.clauses_by_literal (-lit) with
    | none => simp [h2]
    | some idxs => simp [h2]
  | some idxs =>
    simp only [h1, Option.getD_some]
    cases h2 : dictGet (idxs.foldl newStep1 s).clauses_by_literal (-lit) with
    | none => simp [h2]
    | some idxs2 => simp [h2]

/-
Characterization of the freshly constructed state: the clauses_by_literal map
and the initial unitary set computed by the constructor.
-/

theorem dictGet_append_one_some (k k2 : Int) (v w : α) :
    ∀ (d : List (Int × α)), dictGet d k2 = some w → dictGet (d ++ [(k, v)]) k2 = some w
  | [], h => by simp [dictGet] at h
  | (pk, pv) :: rest, h => by
    rw [List.cons_append]
    simp only [dictGet] at h ⊢
    by_cases hp : pk = k2
    · rwa [if_pos hp] at h ⊢
    · rw [if_neg hp] at h ⊢
      exact dictGet_append_one_some k k2 v w rest h

theorem dictGet_append_one_none (k k2 : Int) (v : α) :
    ∀ (d : List (Int × α)), dictGet d k2 = none →
      dictGet (d ++ [(k, v)]) k2 = if k = k2 then some v else none
  | [], _ => by simp [dictGet]
  | (pk, pv) :: rest, h => by
    rw [List.cons_append]
    simp only [dictGet] at h ⊢
    by_cases hp : pk = k2
    · rw [if_pos hp] at h
      exact absurd h (by simp)
    · rw [if_neg hp] at h ⊢
      exact dictGet_append_one_none k k2 v rest h

theorem dictGet_cblAppend_self (m : List (Int × List Nat)) (a : Int) (i : Nat) :
    (dictGet (cblAppend m a i) a).getD [] = (dictGet m a).getD [] ++ [i] := by
  unfold cblAppend
  cases h : dictGet m a with
  | none =>
    rw [dictGet_append_one_none a a [i] m h, if_pos rfl]
    simp
  | some lst =>
    rw [dictGet_dictSet_self]
    simp

theorem dictGet_cblAppend_ne (m : List (Int × List Nat)) (a : Int) (i : Nat) (l : Int)
    (h : l ≠ a) : dictGet (cblAppend m a i) l = dictGet m l := by
  unfold cblAppend
  cases hm : dictGet m a with
  | none =>
    cases hl : dictGet m l with
    | none => rw [dictGet_append_one_none a l [i] m hl, if_neg (fun hh => h hh.symm)]
    | some w => rw [dictGet_append_one_some a l [i] w m hl]
  | some lst => exact dictGet_dictSet_ne m a l (lst ++ [i]) h

theorem innerFold_get (i : Nat) :
    ∀ (c : List Int), c.Nodup → ∀ (m : List (Int × List Nat)) (l : Int),
      (dictGet (c.foldl (fun m2 lit => cblAppend m2 lit i) m) l).getD [] =
        if l ∈ c then (dictGet m l).getD [] ++ [i] else (dictGet m l).getD []
  | [], _, m, l => by simp
  | a :: rest, hnd, m, l => by
    have hnda := List.nodup_cons.mp hnd
    rw [List.foldl_cons, innerFold_get i rest hnda.2 (cblAppend m a i) l]
    by_cases hla : l = a
    · subst hla
      rw [if_neg hnda.1, dictGet_cblAppend_self, if_pos (List.mem_cons_self l rest)]
    · rw [dictGet_cblAppend_ne m a i l hla]
      by_cases hlr : l ∈ rest
      · rw [if_pos hlr, if_pos (List.mem_cons_of_mem a hlr)]
      · rw [if_neg hlr, if_neg (by simp [hla, hlr])]

theorem outerFold_get :
    ∀ (ps : List (Nat × List Int)), (∀ p ∈ ps, p.2.Nodup) →
      ∀ (m0 : List (Int × List Nat)) (l : Int),
      (dictGet (ps.foldl (fun m p => p.2.foldl (fun m2 lit => cblAppend m2 lit p.1) m) m0)
        l).getD []
        = (dictGet m0 l).getD [] ++ (ps.filter (fun p => decide (l ∈ p.2))).map Prod.fst
  | [], _, m0, l => by simp
  | p :: rest, hnd, m0, l => by
    rw [List.foldl_cons,
      outerFold_get rest (fun q hq => hnd q (List.mem_cons_of_mem p hq)) _ l,
      innerFold_get p.1 p.2 (hnd p (List.mem_cons_self p rest)) m0 l]
    by_cases hl : l ∈ p.2
    · rw [if_pos hl, List.filter_cons, if_pos (by simpa using hl)]
      simp [List.append_assoc]
    · rw [if_neg hl, List.filter_cons, if_neg (by simpa using hl)]

theorem snd_mem_of_mem_enum2 {cs : List (List Int)} {p : Nat × List Int}
    (hp : p ∈ cs.enum) : p.2 ∈ cs := by
  have h2 : cs[p.1]? = some p.2 := List.mem_enum_iff_getElem?.mp hp
  obtain ⟨hlt, heq⟩ := List.getElem?_eq_some.mp h2
  exact heq ▸ List.getElem_mem hlt

theorem cblOf_init (cs : List (List Int)) (h : ∀ c ∈ cs, c.Nodup) (l : Int) :
    cblOf (SATProblem.init cs) l =
      (cs.enum.filter (fun p => decide (l ∈ p.2))).map Prod.fst := by
  show (dictGet (buildClausesByLiteral cs) l).getD [] = _
  unfold buildClausesByLiteral
  rw [outerFold_get cs.enum (fun p hp => h p.2 (snd_mem_of_mem_enum2 hp)) [] l]
  simp [dictGet]

theorem mem_enumFilterMap (cs : List (List Int)) (P : List Int → Bool) (i : Nat) :
    i ∈ (cs.enum.filter (fun p => P p.2)).map Prod.fst ↔
      i < cs.length ∧ P (cs.getD i []) = true := by
  simp only [List.mem_map, List.mem_filter]
  constructor
  · rintro ⟨p, ⟨hpe, hpl⟩, rfl⟩
    have h2 : cs[p.1]? = some p.2 := List.mem_enum_iff_getElem?.mp hpe
    obtain ⟨hlt, heq⟩ := List.getElem?_eq_some.mp h2
    refine ⟨hlt, ?_⟩
    rw [List.getD_eq_getElem?_getD, h2]
    simpa [heq] using hpl
  · rintro ⟨hlt, hP⟩
    refine ⟨(i, cs.getD i []), ⟨?_, hP⟩, rfl⟩
    rw [List.mem_enum_iff_getElem?]
    rw [List.getD_eq_getElem?_getD, List.getElem?_eq_getElem hlt]
    simp

theorem mem_cblOf_init (cs : List (List Int)) (h : ∀ c ∈ cs, c.Nodup) (l : Int) (i : Nat) :
    i ∈ cblOf (SATProblem.init cs) l ↔ i < cs.length ∧ l ∈ cs.getD i [] := by
  rw [cblOf_init cs h l, mem_enumFilterMap cs (fun c => decide (l ∈ c)) i]
  simp

theorem nodup_cblOf_init (cs : List (List Int)) (h : ∀ c ∈ cs, c.Nodup) (l : Int) :
    (cblOf (SATProblem.init cs) l).Nodup := by
  rw [cblOf_init cs h l]
  exact List.Nodup.sublist ((List.filter_sublist _).map Prod.fst)
    (List.nodup_enum_map_fst cs)

theorem initUnit_fold :
    ∀ (ps : List (Nat × List Int)) (s : List Nat), (ps.map Prod.fst).Nodup →
      (∀ p ∈ ps, p.1 ∉ s) →
      ps.foldl (fun s p => if p.2.length = 1 then setAdd s p.1 else s) s =
        s ++ (ps.filter (fun p => decide (p.2.length = 1))).map Prod.fst
  | [], s, _, _ => by simp
  | p :: rest, s, hnd, hns => by
    have hndr := List.nodup_cons.mp hnd
    rw [List.foldl_cons]
    by_cases hp : p.2.length = 1
    · rw [if_pos hp]
      have hset : setAdd s p.1 = s ++ [p.1] := by
        unfold setAdd
        rw [if_neg (hns p (List.mem_cons_self p rest))]
      rw [hset, initUnit_fold rest (s ++ [p.1]) hndr.2 ?_]
      · rw [List.filter_cons, if_pos (by simpa using hp)]
        simp [List.append_assoc]
      · intro q hq
        simp only [List.mem_append, List.mem_singleton]
        rintro (h1 | h2)
        · exact hns q (List.mem_cons_of_mem p hq) h1
        · exact hndr.1 (h2 ▸ List.mem_map_of_mem Prod.fst hq)
    · rw [if_neg hp, initUnit_fold rest s hndr.2
        (fun q hq => hns q (List.mem_cons_of_mem p hq)),
        List.filter_cons, if_neg (by simpa using hp)]

theorem initUnit_spec (cs : List (List Int)) (i : Nat) :
    i ∈ initUnitClausesCheck cs ↔ i < cs.length ∧ (cs.getD i []).length = 1 := by
  unfold initUnitClausesCheck
  rw [initUnit_fold cs.enum [] (List.nodup_enum_map_fst cs) (by simp), List.nil_append,
    mem_enumFilterMap cs (fun c => decide (c.length = 1)) i]
  simp

theorem initUnit_nodup (cs : List (List Int)) : (initUnitClausesCheck cs).Nodup := by
  unfold initUnitClausesCheck
  rw [initUnit_fold cs.enum [] (List.nodup_enum_map_fst cs) (by simp), List.nil_append]
  exact List.Nodup.sublist ((List.filter_sublist _).map Prod.fst)
    (List.nodup_enum_map_fst cs)

theorem getD_replicate_lt (n : Nat) (a d : α) (i : Nat) (h : i < n) :
    (List.replicate n a).getD i d = a := by
  rw [List.getD_eq_getElem?_getD, List.getElem?_replicate]
  simp [h]

theorem getD_map_length (cs : List (List Int)) (i : Nat) (h : i < cs.length) :
    (cs.map (fun c => (c.length : Int))).getD i 0 = ((cs.getD i []).length : Int) := by
  rw [List.getD_eq_getElem?_getD, List.getElem?_map, List.getD_eq_getElem?_getD,
    List.getElem?_eq_getElem h]
  simp

theorem cntTrue_nil (c : List Int) : cntTrue [] c = 0 := by
  unfold cntTrue
  rw [List.countP_eq_zero]
  intro a _
  simp [litTrue, dictGet]

theorem cntUn_nil (c : List Int) : cntUn [] c = c.length := by
  unfold cntUn
  rw [List.countP_eq_length]
  intro a _
  simp [litUnassigned, dictGet]

theorem getD_mem_of_lt (cs : List (List Int)) (i : Nat) (h : i < cs.length) :
    cs.getD i [] ∈ cs := by
  rw [List.getD_eq_getElem _ _ h]
  exact List.getElem_mem h

/-- The full state invariant maintained by the plain-state mutators: valid
clauses, bookkeeping lists of the right length, duplicate-free assignment keys
and index sets, an exact clauses_by_literal map, in-range index sets, and
per-clause views that agree with brute-force recounting. -/
structure WF (s : SATProblem) : Prop where
  valid : ValidClauses s.clauses
  sm_len : s.satisfaction_map.length = s.clauses.length
  ns_len : s.num_of_assigned_literals_that_satisfy_a_clause.length = s.clauses.length
  nu_len : s.num_of_unassigned_literals_in_clause.length = s.clauses.length
  akeys : (s.assignments.map Prod.fst).Nodup
  akeys_pos : ∀ p ∈ s.assignments, 0 < p.1
  cbl_mem : ∀ l i, i ∈ cblOf s l ↔ i < s.clauses.length ∧ l ∈ s.clauses.getD i []
  cbl_nd : ∀ l, (cblOf s l).Nodup
  sets_nd : SetsNodup s
  unit_lt : ∀ i ∈ s.unitary_clauses, i < s.clauses.length
  contr_lt : ∀ i ∈ s.contradicted_clauses, i < s.clauses.length
  views : ∀ i, i < s.clauses.length →
    viewOk (viewAt s i) (cntTrue s.assignments (s.clauses.getD i []))
      (cntUn s.assignments (s.clauses.getD i []))

theorem wf_init (cs : List (List Int)) (hv : ValidClauses cs) :
    WF (SATProblem.init cs) := by
  have hnd : ∀ c ∈ cs, c.Nodup := fun c hc => (hv.2 c hc).2.1
  refine ⟨hv, by simp [SATProblem.init], by simp [SATProblem.init],
    by simp [SATProblem.init], by simp [SATProblem.init], by simp [SATProblem.init],
    mem_cblOf_init cs hnd, nodup_cblOf_init cs hnd,
    ⟨initUnit_nodup cs, by simp [SATProblem.init]⟩,
    fun i hi => (initUnit_spec cs i).mp hi |>.1,
    by simp [SATProblem.init], ?_⟩
  intro i hi
  replace hi : i < cs.length := hi
  have hc := getD_mem_of_lt cs i hi
  have hlen : 0 < (cs.getD i []).length := List.length_pos.mpr (hv.2 _ hc).1
  unfold viewOk viewAt SATProblem.init
  dsimp only
  rw [getD_replicate_lt _ _ _ _ hi, getD_replicate_lt _ _ _ _ hi, getD_map_length cs i hi,
    cntTrue_nil, cntUn_nil]
  refine ⟨by simp, by simp, by simp, ?_, ?_⟩
  · rw [decide_eq_decide, initUnit_spec cs i]
    omega
  · have h0 : (decide (i ∈ ([] : List Nat))) = false := by simp
    rw [h0]
    symm
    rw [decide_eq_false_iff_not]
    omega

theorem oldLiteralUnassigned_eq (s : SATProblem) (lit : Int) :
    s.oldLiteralUnassigned lit =
      (cblOf ((cblOf s lit).foldl oldStep1 s) (-lit)).foldl oldStep2
        ((cblOf s lit).foldl oldStep1 s) := by
  unfold SATProblem.oldLiteralUnassigned cblOf
  cases h1 : dictGet s.clauses_by_literal lit with
  | none =>
    simp only [h1, Option.getD_none, List.foldl_nil]
    cases h2 : dictGet s.clauses_by_literal (-lit) with
    | none => simp [h2]
    | some idxs => simp [h2]
  | some idxs =>
    simp only [h1, Option.getD_some]
    cases h2 : dictGet (idxs.foldl oldStep1 s).clauses_by_literal (-lit) with
    | none => simp [h2]
    | some idxs2 => simp [h2]

/-
Preservation of the invariant by the three solver mutators.
-/

theorem pyabs_pos (l : Int) (hl : l ≠ 0) : 0 < pyabs l := by
  unfold pyabs
  rw [Int.ofNat_eq_coe]
  omega

theorem dictGet_mem (k : Int) (v : α) :
    ∀ (d : List (Int × α)), dictGet d k = some v → (k, v) ∈ d
  | [], h => by simp [dictGet] at h
  | (pk, pv) :: rest, h => by
    simp only [dictGet] at h
    by_cases hp : pk = k
    · rw [if_pos hp] at h
      subst hp
      simp only [Option.some.injEq] at h
      subst h
      exact List.mem_cons_self _ _
    · rw [if_neg hp] at h
      exact List.mem_cons_of_mem _ (dictGet_mem k v rest h)

theorem mem_dictSet_elim (k : Int) (v : α) (p : Int × α) :
    ∀ (d : List (Int × α)), p ∈ dictSet d k v → p ∈ d ∨ p = (k, v)
  | [], h => by
    simp only [dictSet, List.mem_singleton] at h
    exact Or.inr h
  | (pk, pv) :: rest, h => by
    simp only [dictSet] at h
    by_cases hp : pk = k
    · rw [if_pos hp] at h
      rcases List.mem_cons.mp h with h1 | h2
      · exact Or.inr h1
      · exact Or.inl (List.mem_cons_of_mem _ h2)
    · rw [if_neg hp] at h
      rcases List.mem_cons.mp h with h1 | h2
      · exact Or.inl (h1 ▸ List.mem_cons_self _ _)
      · rcases mem_dictSet_elim k v p rest h2 with h3 | h3
        · exact Or.inl (List.mem_cons_of_mem _ h3)
        · exact Or.inr h3

theorem mem_dictDelT_elim (k : Int) (p : Int × α) :
    ∀ (d : List (Int × α)), p ∈ dictDelT d k → p ∈ d
  | [], h => by simp [dictDelT] at h
  | (pk, pv) :: rest, h => by
    simp only [dictDelT] at h
    by_cases hp : pk = k
    · rw [if_pos hp] at h
      exact List.mem_cons_of_mem _ h
    · rw [if_neg hp] at h
      rcases List.mem_cons.mp h with h1 | h2
      · exact h1 ▸ List.mem_cons_self _ _
      · exact List.mem_cons_of_mem _ (mem_dictDelT_elim k p rest h2)

theorem unit_mem_of_viewAt_eq {a b : SATProblem} {j : Nat}
    (h : viewAt a j = viewAt b j) :
    j ∈ a.unitary_clauses ↔ j ∈ b.unitary_clauses := by
  have h2 := congrArg ClauseView.unit h
  simpa [viewAt] using h2

theorem contr_mem_of_viewAt_eq {a b : SATProblem} {j : Nat}
    (h : viewAt a j = viewAt b j) :
    j ∈ a.contradicted_clauses ↔ j ∈ b.contradicted_clauses := by
  have h2 := congrArg ClauseView.contr h
  simpa [viewAt] using h2

theorem foldl_newStep1_spec (idxs : List Nat) (s : SATProblem) (hnd : idxs.Nodup)
    (hs : SetsNodup s) (hin : ∀ c ∈ idxs, InRange s c) :
    FrameEq (idxs.foldl newStep1 s) s ∧ SetsNodup (idxs.foldl newStep1 s) ∧
    (∀ j, j ∉ idxs → viewAt (idxs.foldl newStep1 s) j = viewAt s j) ∧
    (∀ j ∈ idxs, viewAt (idxs.foldl newStep1 s) j = newStep1V (viewAt s j)) :=
  foldl_viewLocal newStep1 newStep1V newStep1_frame newStep1_nodup
    (fun t c hnd2 hr => newStep1_view_self t c hnd2 hr.1 hr.2.1 hr.2.2)
    newStep1_view_other idxs s hnd hs hin

theorem foldl_newStep2_spec (idxs : List Nat) (s : SATProblem) (hnd : idxs.Nodup)
    (hs : SetsNodup s) (hin : ∀ c ∈ idxs, InRange s c) :
    FrameEq (idxs.foldl newStep2 s) s ∧ SetsNodup (idxs.foldl newStep2 s) ∧
    (∀ j, j ∉ idxs → viewAt (idxs.foldl newStep2 s) j = viewAt s j) ∧
    (∀ j ∈ idxs, viewAt (idxs.foldl newStep2 s) j = newStep2V (viewAt s j)) :=
  foldl_viewLocal newStep2 newStep2V newStep2_frame newStep2_nodup
    (fun t c _ hr => newStep2_view_self t c hr.2.2)
    newStep2_view_other idxs s hnd hs hin

theorem foldl_oldStep1_spec (idxs : List Nat) (s : SATProblem) (hnd : idxs.Nodup)
    (hs : SetsNodup s) (hin : ∀ c ∈ idxs, InRange s c) :
    FrameEq (idxs.foldl oldStep1 s) s ∧ SetsNodup (idxs.foldl oldStep1 s) ∧
    (∀ j, j ∉ idxs → viewAt (idxs.foldl oldStep1 s) j = viewAt s j) ∧
    (∀ j ∈ idxs, viewAt (idxs.foldl oldStep1 s) j = oldStep1V (viewAt s j)) :=
  foldl_viewLocal oldStep1 oldStep1V oldStep1_frame oldStep1_nodup
    (fun t c _ hr => oldStep1_view_self t c hr.1 hr.2.1 hr.2.2)
    oldStep1_view_other idxs s hnd hs hin

theorem foldl_oldStep2_spec (idxs : List Nat) (s : SATProblem) (hnd : idxs.Nodup)
    (hs : SetsNodup s) (hin : ∀ c ∈ idxs, InRange s c) :
    FrameEq (idxs.foldl oldStep2 s) s ∧ SetsNodup (idxs.foldl oldStep2 s) ∧
    (∀ j, j ∉ idxs → viewAt (idxs.foldl oldStep2 s) j = viewAt s j) ∧
    (∀ j ∈ idxs, viewAt (idxs.foldl oldStep2 s) j = oldStep2V (viewAt s j)) :=
  foldl_viewLocal oldStep2 oldStep2V oldStep2_frame oldStep2_nodup
    (fun t c hnd2 hr => oldStep2_view_self t c hnd2 hr.2.2)
    oldStep2_view_other idxs s hnd hs hin

theorem newLiteralAssigned_views (t : SATProblem) (l : Int)
    (hnd : SetsNodup t)
    (hnd1 : (cblOf t l).Nodup) (hnd2 : (cblOf t (-l)).Nodup)
    (hin1 : ∀ c ∈ cblOf t l, InRange t c) (hin2 : ∀ c ∈ cblOf t (-l), InRange t c)
    (hdisj : ∀ c, c ∈ cblOf t l → c ∈ cblOf t (-l) → False) :
    FrameEq (t.newLiteralAssigned l) t ∧ SetsNodup (t.newLiteralAssigned l) ∧
    (∀ j, j ∉ cblOf t l → j ∉ cblOf t (-l) →
      viewAt (t.newLiteralAssigned l) j = viewAt t j) ∧
    (∀ j ∈ cblOf t l, viewAt (t.newLiteralAssigned l) j = newStep1V (viewAt t j)) ∧
    (∀ j ∈ cblOf t (-l), viewAt (t.newLiteralAssigned l) j = newStep2V (viewAt t j)) := by
  rw [newLiteralAssigned_eq]
  have K1 := foldl_newStep1_spec (cblOf t l) t hnd1 hnd hin1
  have hcbl_eq : cblOf ((cblOf t l).foldl newStep1 t) (-l) = cblOf t (-l) :=
    congrArg (fun d => (dictGet d (-l)).getD []) K1.1.2.2.1
  rw [hcbl_eq]
  have hin2a : ∀ c ∈ cblOf t (-l), InRange ((cblOf t l).foldl newStep1 t) c :=
    fun c hc => inRange_of_frameEq K1.1 c (hin2 c hc)
  have K2 := foldl_newStep2_spec (cblOf t (-l)) ((cblOf t l).foldl newStep1 t) hnd2
    K1.2.1 hin2a
  refine ⟨frameEq_trans K2.1 K1.1, K2.2.1, ?_, ?_, ?_⟩
  · intro j hj1 hj2
    rw [K2.2.2.1 j hj2, K1.2.2.1 j hj1]
  · intro j hj
    rw [K2.2.2.1 j (fun hh => hdisj j hj hh), K1.2.2.2 j hj]
  · intro j hj
    rw [K2.2.2.2 j hj, K1.2.2.1 j (fun hh => hdisj j hh hj)]

theorem oldLiteralUnassigned_views (t : SATProblem) (l : Int)
    (hnd : SetsNodup t)
    (hnd1 : (cblOf t l).Nodup) (hnd2 : (cblOf t (-l)).Nodup)
    (hin1 : ∀ c ∈ cblOf t l, InRange t c) (hin2 : ∀ c ∈ cblOf t (-l), InRange t c)
    (hdisj : ∀ c, c ∈ cblOf t l → c ∈ cblOf t (-l) → False) :
    FrameEq (t.oldLiteralUnassigned l) t ∧ SetsNodup (t.oldLiteralUnassigned l) ∧
    (∀ j, j ∉ cblOf t l → j ∉ cblOf t (-l) →
      viewAt (t.oldLiteralUnassigned l) j = viewAt t j) ∧
    (∀ j ∈ cblOf t l, viewAt (t.oldLiteralUnassigned l) j = oldStep1V (viewAt t j)) ∧
    (∀ j ∈ cblOf t (-l), viewAt (t.oldLiteralUnassigned l) j = oldStep2V (viewAt t j)) := by
  rw [oldLiteralUnassigned_eq]
  have K1 := foldl_oldStep1_spec (cblOf t l) t hnd1 hnd hin1
  have hcbl_eq : cblOf ((cblOf t l).foldl oldStep1 t) (-l) = cblOf t (-l) :=
    congrArg (fun d => (dictGet d (-l)).getD []) K1.1.2.2.1
  rw [hcbl_eq]
  have hin2a : ∀ c ∈ cblOf t (-l), InRange ((cblOf t l).foldl oldStep1 t) c :=
    fun c hc => inRange_of_frameEq K1.1 c (hin2 c hc)
  have K2 := foldl_oldStep2_spec (cblOf t (-l)) ((cblOf t l).foldl oldStep1 t) hnd2
    K1.2.1 hin2a
  refine ⟨frameEq_trans K2.1 K1.1, K2.2.1, ?_, ?_, ?_⟩
  · intro j hj1 hj2
    rw [K2.2.2.1 j hj2, K1.2.2.1 j hj1]
  · intro j hj
    rw [K2.2.2.1 j (fun hh => hdisj j hj hh), K1.2.2.2 j hj]
  · intro j hj
    rw [K2.2.2.2 j hj, K1.2.2.1 j (fun hh => hdisj j hh hj)]

theorem valid_other (c : List Int) (hval : ∀ y ∈ c, y ≠ 0 ∧ ¬ (-y) ∈ c) (x : Int)
    (hx : x ∈ c) : ∀ y ∈ c, y ≠ x → pyabs y ≠ pyabs x := by
  intro y hy hne habs
  rcases (pyabs_eq_iff y x).mp habs with rfl | rfl
  · exact hne rfl
  · exact (hval x hx).2 hy

theorem wf_assign (s : SATProblem) (l : Int) (hwf : WF s) (hl : l ≠ 0)
    (hfree : dictGet s.assignments (pyabs l) = none) : WF (assignLit s l) := by
  unfold assignLit
  set t : SATProblem :=
    { s with assignments := dictSet s.assignments (pyabs l) (decide (0 < l)) } with ht
  have hdisj : ∀ c, c ∈ cblOf s l → c ∈ cblOf s (-l) → False := by
    intro c h1 h2
    have m1 := (hwf.cbl_mem l c).mp h1
    have m2 := (hwf.cbl_mem (-l) c).mp h2
    exact ((hwf.valid.2 _ (getD_mem_of_lt _ _ m1.1)).2.2 l m1.2).2 m2.2
  have hin : ∀ (x : Int), ∀ c ∈ cblOf s x, InRange s c := by
    intro x c hc
    have hlt := ((hwf.cbl_mem x c).mp hc).1
    exact ⟨hwf.sm_len ▸ hlt, hwf.ns_len ▸ hlt, hwf.nu_len ▸ hlt⟩
  have K := newLiteralAssigned_views t l hwf.sets_nd (hwf.cbl_nd l) (hwf.cbl_nd (-l))
    (hin l) (hin (-l)) hdisj
  have hRc : (t.newLiteralAssigned l).clauses = s.clauses := K.1.1
  have hRa : (t.newLiteralAssigned l).assignments =
      dictSet s.assignments (pyabs l) (decide (0 < l)) := K.1.2.1
  have hRcb : (t.newLiteralAssigned l).clauses_by_literal = s.clauses_by_literal :=
    K.1.2.2.1
  have hRsm : (t.newLiteralAssigned l).satisfaction_map.length =
      s.satisfaction_map.length := K.1.2.2.2.1
  have hRns : (t.newLiteralAssigned l).num_of_assigned_literals_that_satisfy_a_clause.length
      = s.num_of_assigned_literals_that_satisfy_a_clause.length := K.1.2.2.2.2.1
  have hRnu : (t.newLiteralAssigned l).num_of_unassigned_literals_in_clause.length
      = s.num_of_unassigned_literals_in_clause.length := K.1.2.2.2.2.2
  have hRcbl : ∀ x, cblOf (t.newLiteralAssigned l) x = cblOf s x :=
    fun x => congrArg (fun d => (dictGet d x).getD []) hRcb
  refine ⟨?_, ?_, ?_, ?_, ?_, ?_, ?_, ?_, K.2.1, ?_, ?_, ?_⟩
  · rw [hRc]
    exact hwf.valid
  · rw [hRsm, hRc]
    exact hwf.sm_len
  · rw [hRns, hRc]
    exact hwf.ns_len
  · rw [hRnu, hRc]
    exact hwf.nu_len
  · rw [hRa]
    exact keys_nodup_dictSet _ _ _ hwf.akeys
  · rw [hRa]
    intro p hp
    rcases mem_dictSet_elim _ _ p _ hp with h1 | h1
    · exact hwf.akeys_pos p h1
    · subst h1
      exact pyabs_pos l hl
  · intro x i
    rw [hRcbl x, hRc]
    exact hwf.cbl_mem x i
  · intro x
    rw [hRcbl x]
    exact hwf.cbl_nd x
  · intro i hi
    rw [hRc]
    by_contra hge
    have hn1 : i ∉ cblOf s l := fun h => hge ((hwf.cbl_mem l i).mp h).1
    have hn2 : i ∉ cblOf s (-l) := fun h => hge ((hwf.cbl_mem (-l) i).mp h).1
    have hview := K.2.2.1 i hn1 hn2
    have hmem : i ∈ s.unitary_clauses := (unit_mem_of_viewAt_eq hview).mp hi
    exact hge (hwf.unit_lt i hmem)
  · intro i hi
    rw [hRc]
    by_contra hge
    have hn1 : i ∉ cblOf s l := fun h => hge ((hwf.cbl_mem l i).mp h).1
    have hn2 : i ∉ cblOf s (-l) := fun h => hge ((hwf.cbl_mem (-l) i).mp h).1
    have hview := K.2.2.1 i hn1 hn2
    have hmem : i ∈ s.contradicted_clauses := (contr_mem_of_viewAt_eq hview).mp hi
    exact hge (hwf.contr_lt i hmem)
  · intro i hi
    rw [hRc] at hi
    rw [hRa, hRc]
    have hcm := getD_mem_of_lt s.clauses i hi
    have hv := hwf.valid.2 _ hcm
    have hndc := hv.2.1
    by_cases hmem : l ∈ s.clauses.getD i []
    · have hcb1 : i ∈ cblOf s l := (hwf.cbl_mem l i).mpr ⟨hi, hmem⟩
      rw [K.2.2.2.1 i hcb1]
      have hoth : ∀ y ∈ s.clauses.getD i [], y ≠ l → pyabs y ≠ pyabs l :=
        valid_other _ hv.2.2 l hmem
      have hct : cntTrue (dictSet s.assignments (pyabs l) (decide (0 < l)))
          (s.clauses.getD i []) = cntTrue s.assignments (s.clauses.getD i []) + 1 :=
        cntTrue_set_incr s.assignments _ l hmem hndc hoth
          (litTrue_none s.assignments l l rfl hfree)
      have hcu : cntUn s.assignments (s.clauses.getD i []) =
          cntUn (dictSet s.assignments (pyabs l) (decide (0 < l)))
            (s.clauses.getD i []) + 1 :=
        cntUn_set_decr s.assignments _ l l _ rfl hmem hndc hoth
          (litUnassigned_none s.assignments l l rfl hfree)
      rw [hct, show cntUn (dictSet s.assignments (pyabs l) (decide (0 < l)))
          (s.clauses.getD i []) = cntUn s.assignments (s.clauses.getD i []) - 1
        from by omega]
      exact viewOk_newStep1V _ _ _ (hwf.views i hi) (by omega)
    · by_cases hmem2 : (-l) ∈ s.clauses.getD i []
      · have hcb2 : i ∈ cblOf s (-l) := (hwf.cbl_mem (-l) i).mpr ⟨hi, hmem2⟩
        rw [K.2.2.2.2 i hcb2]
        have hothneg : ∀ y ∈ s.clauses.getD i [], y ≠ -l → pyabs y ≠ pyabs l := by
          intro y hy hne
          rw [← pyabs_neg l]
          exact valid_other _ hv.2.2 (-l) hmem2 y hy hne
        have hct : cntTrue (dictSet s.assignments (pyabs l) (decide (0 < l)))
            (s.clauses.getD i []) = cntTrue s.assignments (s.clauses.getD i []) :=
          cntTrue_set_keep_neg s.assignments _ l hl hmem2 hndc hothneg
            (litTrue_none s.assignments l (-l) (pyabs_neg l) hfree)
        have hcu : cntUn s.assignments (s.clauses.getD i []) =
            cntUn (dictSet s.assignments (pyabs l) (decide (0 < l)))
              (s.clauses.getD i []) + 1 :=
          cntUn_set_decr s.assignments _ l (-l) _ (pyabs_neg l) hmem2 hndc hothneg
            (litUnassigned_none s.assignments l (-l) (pyabs_neg l) hfree)
        rw [hct, show cntUn (dictSet s.assignments (pyabs l) (decide (0 < l)))
            (s.clauses.getD i []) = cntUn s.assignments (s.clauses.getD i []) - 1
          from by omega]
        exact viewOk_newStep2V _ _ _ (hwf.views i hi) (by omega)
      · have hn1 : i ∉ cblOf s l := fun h => hmem ((hwf.cbl_mem l i).mp h).2
        have hn2 : i ∉ cblOf s (-l) := fun h => hmem2 ((hwf.cbl_mem (-l) i).mp h).2
        rw [K.2.2.1 i hn1 hn2]
        have hoth3 : ∀ y ∈ s.clauses.getD i [], pyabs y ≠ pyabs l := by
          intro y hy habs
          rcases (pyabs_eq_iff y l).mp habs with rfl | rfl
          · exact hmem hy
          · exact hmem2 hy
        rw [cntTrue_set_skip s.assignments _ l _ hoth3,
          cntUn_set_skip s.assignments _ l _ hoth3]
        exact hwf.views i hi

theorem wf_unassign (s : SATProblem) (l : Int) (hwf : WF s)
    (hcur : dictGet s.assignments (pyabs l) = some (decide (0 < l))) :
    WF (unassignLit s l) := by
  have hkey := dictGet_mem _ _ _ hcur
  have hpos := hwf.akeys_pos _ hkey
  have hl : l ≠ 0 := by
    intro h
    subst h
    simp [pyabs] at hpos
  unfold unassignLit
  set t : SATProblem :=
    { s with assignments := dictDelT s.assignments (pyabs l) } with ht
  have hdisj : ∀ c, c ∈ cblOf s l → c ∈ cblOf s (-l) → False := by
    intro c h1 h2
    have m1 := (hwf.cbl_mem l c).mp h1
    have m2 := (hwf.cbl_mem (-l) c).mp h2
    exact ((hwf.valid.2 _ (getD_mem_of_lt _ _ m1.1)).2.2 l m1.2).2 m2.2
  have hin : ∀ (x : Int), ∀ c ∈ cblOf s x, InRange s c := by
    intro x c hc
    have hlt := ((hwf.cbl_mem x c).mp hc).1
    exact ⟨hwf.sm_len ▸ hlt, hwf.ns_len ▸ hlt, hwf.nu_len ▸ hlt⟩
  have K := oldLiteralUnassigned_views t l hwf.sets_nd (hwf.cbl_nd l) (hwf.cbl_nd (-l))
    (hin l) (hin (-l)) hdisj
  have hRc : (t.oldLiteralUnassigned l).clauses = s.clauses := K.1.1
  have hRa : (t.oldLiteralUnassigned l).assignments =
      dictDelT s.assignments (pyabs l) := K.1.2.1
  have hRcb : (t.oldLiteralUnassigned l).clauses_by_literal = s.clauses_by_literal :=
    K.1.2.2.1
  have hRsm : (t.oldLiteralUnassigned l).satisfaction_map.length =
      s.satisfaction_map.length := K.1.2.2.2.1
  have hRns : (t.oldLiteralUnassigned l).num_of_assigned_literals_that_satisfy_a_clause.length
      = s.num_of_assigned_literals_that_satisfy_a_clause.length := K.1.2.2.2.2.1
  have hRnu : (t.oldLiteralUnassigned l).num_of_unassigned_literals_in_clause.length
      = s.num_of_unassigned_literals_in_clause.length := K.1.2.2.2.2.2
  have hRcbl : ∀ x, cblOf (t.oldLiteralUnassigned l) x = cblOf s x :=
    fun x => congrArg (fun d => (dictGet d x).getD []) hRcb
  refine ⟨?_, ?_, ?_, ?_, ?_, ?_, ?_, ?_, K.2.1, ?_, ?_, ?_⟩
  · rw [hRc]
    exact hwf.valid
  · rw [hRsm, hRc]
    exact hwf.sm_len
  · rw [hRns, hRc]
    exact hwf.ns_len
  · rw [hRnu, hRc]
    exact hwf.nu_len
  · rw [hRa]
    exact keys_nodup_dictDelT _ _ hwf.akeys
  · rw [hRa]
    intro p hp
    exact hwf.akeys_pos p (mem_dictDelT_elim _ p _ hp)
  · intro x i
    rw [hRcbl x, hRc]
    exact hwf.cbl_mem x i
  · intro x
    rw [hRcbl x]
    exact hwf.cbl_nd x
  · intro i hi
    rw [hRc]
    by_contra hge
    have hn1 : i ∉ cblOf s l := fun h => hge ((hwf.cbl_mem l i).mp h).1
    have hn2 : i ∉ cblOf s (-l) := fun h => hge ((hwf.cbl_mem (-l) i).mp h).1
    have hview := K.2.2.1 i hn1 hn2
    have hmem : i ∈ s.unitary_clauses := (unit_mem_of_viewAt_eq hview).mp hi
    exact hge (hwf.unit_lt i hmem)
  · intro i hi
    rw [hRc]
    by_contra hge
    have hn1 : i ∉ cblOf s l := fun h => hge ((hwf.cbl_mem l i).mp h).1
    have hn2 : i ∉ cblOf s (-l) := fun h => hge ((hwf.cbl_mem (-l) i).mp h).1
    have hview := K.2.2.1 i hn1 hn2
    have hmem : i ∈ s.contradicted_clauses := (contr_mem_of_viewAt_eq hview).mp hi
    exact hge (hwf.contr_lt i hmem)
  · intro i hi
    rw [hRc] at hi
    rw [hRa, hRc]
    have hcm := getD_mem_of_lt s.clauses i hi
    have hv := hwf.valid.2 _ hcm
    have hndc := hv.2.1
    by_cases hmem : l ∈ s.clauses.getD i []
    · have hcb1 : i ∈ cblOf s l := (hwf.cbl_mem l i).mpr ⟨hi, hmem⟩
      rw [K.2.2.2.1 i hcb1]
      have hoth : ∀ y ∈ s.clauses.getD i [], y ≠ l → pyabs y ≠ pyabs l :=
        valid_other _ hv.2.2 l hmem
      have hct : cntTrue s.assignments (s.clauses.getD i []) =
          cntTrue (dictDelT s.assignments (pyabs l)) (s.clauses.getD i []) + 1 :=
        cntTrue_delT_decr s.assignments _ l l rfl hmem hndc hwf.akeys hoth
          (litTrue_cur_pos s.assignments l hcur)
      have hcu : cntUn (dictDelT s.assignments (pyabs l)) (s.clauses.getD i []) =
          cntUn s.assignments (s.clauses.getD i []) + 1 :=
        cntUn_delT_incr s.assignments _ l l rfl hmem hndc hwf.akeys hoth
          (litUnassigned_cur s.assignments l l _ rfl hcur)
      rw [hcu, show cntTrue (dictDelT s.assignments (pyabs l)) (s.clauses.getD i []) =
          cntTrue s.assignments (s.clauses.getD i []) - 1 from by omega]
      exact viewOk_oldStep1V _ _ _ (hwf.views i hi) (by omega)
    · by_cases hmem2 : (-l) ∈ s.clauses.getD i []
      · have hcb2 : i ∈ cblOf s (-l) := (hwf.cbl_mem (-l) i).mpr ⟨hi, hmem2⟩
        rw [K.2.2.2.2 i hcb2]
        have hothneg : ∀ y ∈ s.clauses.getD i [], y ≠ -l → pyabs y ≠ pyabs l := by
          intro y hy hne
          rw [← pyabs_neg l]
          exact valid_other _ hv.2.2 (-l) hmem2 y hy hne
        have hct : cntTrue (dictDelT s.assignments (pyabs l)) (s.clauses.getD i []) =
            cntTrue s.assignments (s.clauses.getD i []) :=
          cntTrue_delT_keep s.assignments _ l (-l) (pyabs_neg l) hmem2 hndc hwf.akeys
            hothneg (litTrue_cur_neg s.assignments l hl hcur)
        have hcu : cntUn (dictDelT s.assignments (pyabs l)) (s.clauses.getD i []) =
            cntUn s.assignments (s.clauses.getD i []) + 1 :=
          cntUn_delT_incr s.assignments _ l (-l) (pyabs_neg l) hmem2 hndc hwf.akeys
            hothneg (litUnassigned_cur s.assignments l (-l) _ (pyabs_neg l) hcur)
        rw [hct, hcu]
        exact viewOk_oldStep2V _ _ _ (hwf.views i hi)
      · have hn1 : i ∉ cblOf s l := fun h => hmem ((hwf.cbl_mem l i).mp h).2
        have hn2 : i ∉ cblOf s (-l) := fun h => hmem2 ((hwf.cbl_mem (-l) i).mp h).2
        rw [K.2.2.1 i hn1 hn2]
        have hoth3 : ∀ y ∈ s.clauses.getD i [], pyabs y ≠ pyabs l := by
          intro y hy habs
          rcases (pyabs_eq_iff y l).mp habs with rfl | rfl
          · exact hmem hy
          · exact hmem2 hy
        rw [cntTrue_delT_skip s.assignments _ l hoth3,
          cntUn_delT_skip s.assignments _ l hoth3]
        exact hwf.views i hi

theorem wf_change (s : SATProblem) (l : Int) (hwf : WF s) (hl : l ≠ 0)
    (hcur : dictGet s.assignments (pyabs l) = some (!decide (0 < l))) :
    WF (changeLit s l) := by
  unfold changeLit SATProblem.updChange
  set t : SATProblem :=
    { s with assignments := dictSet s.assignments (pyabs l) (decide (0 < l)) } with ht
  have hdisj : ∀ c, c ∈ cblOf s l → c ∈ cblOf s (-l) → False := by
    intro c h1 h2
    have m1 := (hwf.cbl_mem l c).mp h1
    have m2 := (hwf.cbl_mem (-l) c).mp h2
    exact ((hwf.valid.2 _ (getD_mem_of_lt _ _ m1.1)).2.2 l m1.2).2 m2.2
  have hin : ∀ (x : Int), ∀ c ∈ cblOf s x, InRange s c := by
    intro x c hc
    have hlt := ((hwf.cbl_mem x c).mp hc).1
    exact ⟨hwf.sm_len ▸ hlt, hwf.ns_len ▸ hlt, hwf.nu_len ▸ hlt⟩
  have K1 := oldLiteralUnassigned_views t (-l) hwf.sets_nd (hwf.cbl_nd (-l))
    (by rw [neg_neg] ; exact hwf.cbl_nd l) (hin (-l)) (by rw [neg_neg] ; exact hin l)
    (by rw [neg_neg] ; exact fun c h1 h2 => hdisj c h2 h1)
  rw [neg_neg] at K1
  have ht1cbl : ∀ x, cblOf (t.oldLiteralUnassigned (-l)) x = cblOf s x :=
    fun x => congrArg (fun d => (dictGet d x).getD []) K1.1.2.2.1
  have hin1 : ∀ (x : Int), ∀ c ∈ cblOf (t.oldLiteralUnassigned (-l)) x,
      InRange (t.oldLiteralUnassigned (-l)) c := by
    intro x c hc
    rw [ht1cbl x] at hc
    exact inRange_of_frameEq K1.1 c (hin x c hc)
  have K2 := newLiteralAssigned_views (t.oldLiteralUnassigned (-l)) l K1.2.1
    (by rw [ht1cbl] ; exact hwf.cbl_nd l) (by rw [ht1cbl] ; exact hwf.cbl_nd (-l))
    (hin1 l) (hin1 (-l))
    (by intro c h1 h2 ; rw [ht1cbl] at h1 h2 ; exact hdisj c h1 h2)
  set R := ((t.oldLiteralUnassigned (-l)).newLiteralAssigned l) with hR
  have hRc : R.clauses = s.clauses := K2.1.1.trans K1.1.1
  have hRa : R.assignments = dictSet s.assignments (pyabs l) (decide (0 < l)) :=
    K2.1.2.1.trans K1.1.2.1
  have hRcb : R.clauses_by_literal = s.clauses_by_literal :=
    K2.1.2.2.1.trans K1.1.2.2.1
  have hRsm : R.satisfaction_map.length = s.satisfaction_map.length :=
    K2.1.2.2.2.1.trans K1.1.2.2.2.1
  have hRns : R.num_of_assigned_literals_that_satisfy_a_clause.length
      = s.num_of_assigned_literals_that_satisfy_a_clause.length :=
    K2.1.2.2.2.2.1.trans K1.1.2.2.2.2.1
  have hRnu : R.num_of_unassigned_literals_in_clause.length
      = s.num_of_unassigned_literals_in_clause.length :=
    K2.1.2.2.2.2.2.trans K1.1.2.2.2.2.2
  have hRcbl : ∀ x, cblOf R x = cblOf s x :=
    fun x => congrArg (fun d => (dictGet d x).getD []) hRcb
  have hother : ∀ j, j ∉ cblOf s l → j ∉ cblOf s (-l) → viewAt R j = viewAt s j := by
    intro j h1 h2
    rw [K2.2.2.1 j (by rw [ht1cbl] ; exact h1) (by rw [ht1cbl] ; exact h2),
      K1.2.2.1 j h2 h1]
    rfl
  refine ⟨?_, ?_, ?_, ?_, ?_, ?_, ?_, ?_, K2.2.1, ?_, ?_, ?_⟩
  · rw [hRc]
    exact hwf.valid
  · rw [hRsm, hRc]
    exact hwf.sm_len
  · rw [hRns, hRc]
    exact hwf.ns_len
  · rw [hRnu, hRc]
    exact hwf.nu_len
  · rw [hRa]
    exact keys_nodup_dictSet _ _ _ hwf.akeys
  · rw [hRa]
    intro p hp
    rcases mem_dictSet_elim _ _ p _ hp with h1 | h1
    · exact hwf.akeys_pos p h1
    · subst h1
      exact pyabs_pos l hl
  · intro x i
    rw [hRcbl x, hRc]
    exact hwf.cbl_mem x i
  · intro x
    rw [hRcbl x]
    exact hwf.cbl_nd x
  · intro i hi
    rw [hRc]
    by_contra hge
    have hn1 : i ∉ cblOf s l := fun h => hge ((hwf.cbl_mem l i).mp h).1
    have hn2 : i ∉ cblOf s (-l) := fun h => hge ((hwf.cbl_mem (-l) i).mp h).1
    have hmem : i ∈ s.unitary_clauses := (unit_mem_of_viewAt_eq (hother i hn1 hn2)).mp hi
    exact hge (hwf.unit_lt i hmem)
  · intro i hi
    rw [hRc]
    by_contra hge
    have hn1 : i ∉ cblOf s l := fun h => hge ((hwf.cbl_mem l i).mp h).1
    have hn2 : i ∉ cblOf s (-l) := fun h => hge ((hwf.cbl_mem (-l) i).mp h).1
    have hmem : i ∈ s.contradicted_clauses :=
      (contr_mem_of_viewAt_eq (hother i hn1 hn2)).mp hi
    exact hge (hwf.contr_lt i hmem)
  · intro i hi
    rw [hRc] at hi
    rw [hRa, hRc]
    have hcm := getD_mem_of_lt s.clauses i hi
    have hv := hwf.valid.2 _ hcm
    have hndc := hv.2.1
    by_cases hmem : l ∈ s.clauses.getD i []
    · have hcb1 : i ∈ cblOf s l := (hwf.cbl_mem l i).mpr ⟨hi, hmem⟩
      rw [K2.2.2.2.1 i (by rw [ht1cbl] ; exact hcb1), K1.2.2.2.2 i hcb1]
      have hoth : ∀ y ∈ s.clauses.getD i [], y ≠ l → pyabs y ≠ pyabs l :=
        valid_other _ hv.2.2 l hmem
      have hct : cntTrue (dictSet s.assignments (pyabs l) (decide (0 < l)))
          (s.clauses.getD i []) = cntTrue s.assignments (s.clauses.getD i []) + 1 :=
        cntTrue_set_incr s.assignments _ l hmem hndc hoth
          (litTrue_cur_flipped s.assignments l hl hcur).1
      have hcu : cntUn (dictSet s.assignments (pyabs l) (decide (0 < l)))
          (s.clauses.getD i []) = cntUn s.assignments (s.clauses.getD i []) :=
        cntUn_set_keep s.assignments _ l l _ rfl hmem hndc hoth
          (litUnassigned_cur s.assignments l l _ rfl hcur)
      rw [hct, hcu]
      exact viewOk_changePos _ _ _ (hwf.views i hi)
    · by_cases hmem2 : (-l) ∈ s.clauses.getD i []
      · have hcb2 : i ∈ cblOf s (-l) := (hwf.cbl_mem (-l) i).mpr ⟨hi, hmem2⟩
        rw [K2.2.2.2.2 i (by rw [ht1cbl] ; exact hcb2), K1.2.2.2.1 i hcb2]
        have hothneg : ∀ y ∈ s.clauses.getD i [], y ≠ -l → pyabs y ≠ pyabs l := by
          intro y hy hne
          rw [← pyabs_neg l]
          exact valid_other _ hv.2.2 (-l) hmem2 y hy hne
        have htr : litTrue s.assignments (-l) = true :=
          (litTrue_cur_flipped s.assignments l hl hcur).2
        have hct : cntTrue s.assignments (s.clauses.getD i []) =
            cntTrue (dictSet s.assignments (pyabs l) (decide (0 < l)))
              (s.clauses.getD i []) + 1 :=
          cntTrue_set_decr_neg s.assignments _ l hl hmem2 hndc hothneg htr
        have hcu : cntUn (dictSet s.assignments (pyabs l) (decide (0 < l)))
            (s.clauses.getD i []) = cntUn s.assignments (s.clauses.getD i []) :=
          cntUn_set_keep s.assignments _ l (-l) _ (pyabs_neg l) hmem2 hndc hothneg
            (litUnassigned_cur s.assignments l (-l) _ (pyabs_neg l) hcur)
        rw [hcu, show cntTrue (dictSet s.assignments (pyabs l) (decide (0 < l)))
            (s.clauses.getD i []) = cntTrue s.assignments (s.clauses.getD i []) - 1
          from by omega]
        exact viewOk_changeNeg _ _ _ (hwf.views i hi) (by omega)
      · have hn1 : i ∉ cblOf s l := fun h => hmem ((hwf.cbl_mem l i).mp h).2
        have hn2 : i ∉ cblOf s (-l) := fun h => hmem2 ((hwf.cbl_mem (-l) i).mp h).2
        rw [hother i hn1 hn2]
        have hoth3 : ∀ y ∈ s.clauses.getD i [], pyabs y ≠ pyabs l := by
          intro y hy habs
          rcases (pyabs_eq_iff y l).mp habs with rfl | rfl
          · exact hmem hy
          · exact hmem2 hy
        rw [cntTrue_set_skip s.assignments _ l _ hoth3,
          cntUn_set_skip s.assignments _ l _ hoth3]
        exact hwf.views i hi

/-- Every state the solvers can reach from a valid formula satisfies the
invariant. -/
theorem reaches_wf {s : SATProblem} (h : Reaches s) : WF s := by
  induction h with
  | init cs hv => exact wf_init cs hv
  | assign s l hs hl hfree ih => exact wf_assign s l ih hl hfree
  | unassign s l hs hcur ih => exact wf_unassign s l ih hcur
  | change s l hs hl hcur ih => exact wf_change s l ih hl hcur

theorem roundTrip_views (s : SATProblem) (l : Int) (hwf : WF s) (hl : l ≠ 0)
    (hfree : dictGet s.assignments (pyabs l) = none) :
    (unassignLit (assignLit s l) l).clauses = s.clauses ∧
    (unassignLit (assignLit s l) l).assignments = s.assignments ∧
    (unassignLit (assignLit s l) l).clauses_by_literal = s.clauses_by_literal ∧
    (unassignLit (assignLit s l) l).satisfaction_map.length =
      s.satisfaction_map.length ∧
    (unassignLit (assignLit s l) l).num_of_assigned_literals_that_satisfy_a_clause.length
      = s.num_of_assigned_literals_that_satisfy_a_clause.length ∧
    (unassignLit (assignLit s l) l).num_of_unassigned_literals_in_clause.length
      = s.num_of_unassigned_literals_in_clause.length ∧
    ∀ j, viewAt (unassignLit (assignLit s l) l) j = viewAt s j := by
  unfold unassignLit assignLit
  set t : SATProblem :=
    { s with assignments := dictSet s.assignments (pyabs l) (decide (0 < l)) } with ht
  have hdisj : ∀ c, c ∈ cblOf s l → c ∈ cblOf s (-l) → False := by
    intro c h1 h2
    have m1 := (hwf.cbl_mem l c).mp h1
    have m2 := (hwf.cbl_mem (-l) c).mp h2
    exact ((hwf.valid.2 _ (getD_mem_of_lt _ _ m1.1)).2.2 l m1.2).2 m2.2
  have hin : ∀ (x : Int), ∀ c ∈ cblOf s x, InRange s c := by
    intro x c hc
    have hlt := ((hwf.cbl_mem x c).mp hc).1
    exact ⟨hwf.sm_len ▸ hlt, hwf.ns_len ▸ hlt, hwf.nu_len ▸ hlt⟩
  have K := newLiteralAssigned_views t l hwf.sets_nd (hwf.cbl_nd l) (hwf.cbl_nd (-l))
    (hin l) (hin (-l)) hdisj
  set s2 : SATProblem := t.newLiteralAssigned l with hs2
  set t2 : SATProblem :=
    { s2 with assignments := dictDelT s2.assignments (pyabs l) } with ht2
  have hcbl2 : ∀ x, cblOf t2 x = cblOf s x :=
    fun x => congrArg (fun d => (dictGet d x).getD []) K.1.2.2.1
  have hvt2 : ∀ j, viewAt t2 j = viewAt s2 j := fun j => rfl
  have K2 := oldLiteralUnassigned_views t2 l K.2.1
    (by rw [hcbl2] ; exact hwf.cbl_nd l) (by rw [hcbl2] ; exact hwf.cbl_nd (-l))
    (by intro c hc ; rw [hcbl2] at hc ; exact inRange_of_frameEq K.1 c (hin l c hc))
    (by intro c hc ; rw [hcbl2] at hc ; exact inRange_of_frameEq K.1 c (hin (-l) c hc))
    (by intro c h1 h2 ; rw [hcbl2] at h1 h2 ; exact hdisj c h1 h2)
  have ha2 : t2.assignments = s.assignments := by
    have h1 : s2.assignments = dictSet s.assignments (pyabs l) (decide (0 < l)) :=
      K.1.2.1
    show dictDelT s2.assignments (pyabs l) = s.assignments
    rw [h1]
    exact dictDelT_dictSet_fresh _ _ _ hfree
  refine ⟨K2.1.1.trans K.1.1, K2.1.2.1.trans ha2, K2.1.2.2.1.trans K.1.2.2.1,
    K2.1.2.2.2.1.trans K.1.2.2.2.1, K2.1.2.2.2.2.1.trans K.1.2.2.2.2.1,
    K2.1.2.2.2.2.2.trans K.1.2.2.2.2.2, ?_⟩
  intro j
  by_cases h1 : j ∈ cblOf s l
  · have hj : j < s.clauses.length := ((hwf.cbl_mem l j).mp h1).1
    have hmem : l ∈ s.clauses.getD j [] := ((hwf.cbl_mem l j).mp h1).2
    have hun : litUnassigned s.assignments l = true :=
      litUnassigned_none s.assignments l l rfl hfree
    have hcu : 1 ≤ cntUn s.assignments (s.clauses.getD j []) := by
      unfold cntUn
      exact List.countP_pos.mpr ⟨l, hmem, hun⟩
    rw [K2.2.2.2.1 j (by rw [hcbl2] ; exact h1), hvt2 j, K.2.2.2.1 j h1]
    exact roundTrip_pos _ _ _ (hwf.views j hj) hcu
  · by_cases h2 : j ∈ cblOf s (-l)
    · have hj : j < s.clauses.length := ((hwf.cbl_mem (-l) j).mp h2).1
      have hmem : (-l) ∈ s.clauses.getD j [] := ((hwf.cbl_mem (-l) j).mp h2).2
      have hun : litUnassigned s.assignments (-l) = true :=
        litUnassigned_none s.assignments l (-l) (pyabs_neg l) hfree
      have hcu : 1 ≤ cntUn s.assignments (s.clauses.getD j []) := by
        unfold cntUn
        exact List.countP_pos.mpr ⟨-l, hmem, hun⟩
      rw [K2.2.2.2.2 j (by rw [hcbl2] ; exact h2), hvt2 j, K.2.2.2.2 j h2]
      exact roundTrip_neg _ _ _ (hwf.views j hj) hcu
    · rw [K2.2.2.1 j (by rw [hcbl2] ; exact h1) (by rw [hcbl2] ; exact h2), hvt2 j,
        K.2.2.1 j h1 h2]
      rfl

/-
Frame facts about the TWL state: the update mutators never touch
original_clauses, assignments or number_of_clauses.
-/

/-- The TWL fields no satisfaction-map update ever writes. -/
def twlFrame (t : TWLSATProblem) : List (List Int) × List (Int × Bool) × Nat :=
  (t.original_clauses, t.assignments, t.number_of_clauses)

theorem twlFrame_foldl {β : Type} (f : TWLSATProblem → β → TWLSATProblem)
    (hf : ∀ t c, twlFrame (f t c) = twlFrame t) :
    ∀ (xs : List β) (s : TWLSATProblem), twlFrame (xs.foldl f s) = twlFrame s
  | [], _ => rfl
  | x :: xs, s => by
    rw [List.foldl_cons, twlFrame_foldl f hf xs (f s x), hf s x]

theorem twlUpdateWatched_frame (t : TWLSATProblem) (i : Nat) (a : Int) :
    twlFrame (twlUpdateWatched t i a).2 = twlFrame t := by
  unfold twlUpdateWatched
  split
  · rfl
  · split <;> rfl

theorem twlNLA_frame (s : TWLSATProblem) (lit : Int) :
    twlFrame (s.newLiteralAssigned lit) = twlFrame s := by
  unfold TWLSATProblem.newLiteralAssigned
  have hb2 : ∀ (idxs : List Nat) (t : TWLSATProblem),
      twlFrame (idxs.foldl (fun t c =>
        let p := twlUpdateWatched t c lit
        let updated := p.1
        let t := p.2
        if updated then t
        else
          let t :=
            { t with
              num_of_unassigned_literals_in_clause :=
                t.num_of_unassigned_literals_in_clause.set c
                  (t.num_of_unassigned_literals_in_clause.getD c 0 - 1) }
          if t.num_of_unassigned_literals_in_clause.getD c 0 = 0 ∧
              t.satisfaction_map.getD c false = false then
            { t with contradicted_clauses := setAdd t.contradicted_clauses c }
          else if t.num_of_unassigned_literals_in_clause.getD c 0 = 1 ∧
              t.satisfaction_map.getD c false = false then
            { t with unitary_clauses := setAdd t.unitary_clauses c }
          else t) t) = twlFrame t := by
    intro idxs t
    apply twlFrame_foldl
    intro t c
    dsimp only
    have hw := twlUpdateWatched_frame t c lit
    split_ifs <;> simpa using hw
  have hb1 : ∀ (idxs : List Nat) (t : TWLSATProblem),
      twlFrame (idxs.foldl (fun t c =>
        let t :=
          { t with
            satisfaction_map := t.satisfaction_map.set c true
            num_of_assigned_literals_that_satisfy_a_clause :=
              t.num_of_assigned_literals_that_satisfy_a_clause.set c
                (t.num_of_assigned_literals_that_satisfy_a_clause.getD c 0 + 1) }
        if lit ∈ t.clauses.getD c [] then
          let t :=
            { t with
              num_of_unassigned_literals_in_clause :=
                t.num_of_unassigned_literals_in_clause.set c
                  (t.num_of_unassigned_literals_in_clause.getD c 0 - 1) }
          if c ∈ t.unitary_clauses then
            { t with unitary_clauses := setRemove t.unitary_clauses c }
          else t
        else t) t) = twlFrame t := by
    intro idxs t
    apply twlFrame_foldl
    intro t c
    dsimp only
    split_ifs <;> rfl
  cases h1 : dictGet s.clauses_by_literal lit with
  | none =>
    dsimp only
    cases h2 : dictGet s.clauses_by_watched_literal (-lit) with
    | none => rfl
    | some idxs2 => exact hb2 idxs2 s
  | some idxs =>
    dsimp only
    cases h2 : dictGet (idxs.foldl _ s).clauses_by_watched_literal (-lit) with
    | none => exact hb1 idxs s
    | some idxs2 => exact (hb2 idxs2 _).trans (hb1 idxs s)

theorem twlOLU_frame (s : TWLSATProblem) (lit : Int) :
    twlFrame (s.oldLiteralUnassigned lit) = twlFrame s := by
  unfold TWLSATProblem.oldLiteralUnassigned
  have hb1 : ∀ (idxs : List Nat) (t : TWLSATProblem),
      twlFrame (idxs.foldl (fun t c =>
        let t :=
          if lit ∈ t.clauses.getD c [] then
            { t with
              num_of_unassigned_literals_in_clause :=
                t.num_of_unassigned_literals_in_clause.set c
                  (t.num_of_unassigned_literals_in_clause.getD c 0 + 1) }
          else t
        let t :=
          { t with
            num_of_assigned_literals_that_satisfy_a_clause :=
              t.num_of_assigned_literals_that_satisfy_a_clause.set c
                (t.num_of_assigned_literals_that_satisfy_a_clause.getD c 0 - 1) }
        if t.num_of_assigned_literals_that_satisfy_a_clause.getD c 0 = 0 then
          let t := { t with satisfaction_map := t.satisfaction_map.set c false }
          if t.num_of_unassigned_literals_in_clause.getD c 0 = 1 then
            { t with unitary_clauses := setAdd t.unitary_clauses c }
          else t
        else t) t) = twlFrame t := by
    intro idxs t
    apply twlFrame_foldl
    intro t c
    dsimp only
    split_ifs <;> rfl
  have hb2 : ∀ (idxs : List Nat) (t : TWLSATProblem),
      twlFrame (idxs.foldl (fun t c =>
        if (-lit) ∈ t.clauses.getD c [] then
          let t :=
            if t.num_of_assigned_literals_that_satisfy_a_clause.getD c 0 = 0 ∧
                t.satisfaction_map.getD c false = false then
              if c ∈ t.contradicted_clauses then
                { t with contradicted_clauses := setRemove t.contradicted_clauses c
                         unitary_clauses := setAdd t.unitary_clauses c }
              else t
            else t
          let t :=
            { t with
              num_of_unassigned_literals_in_clause :=
                t.num_of_unassigned_literals_in_clause.set c
                  (t.num_of_unassigned_literals_in_clause.getD c 0 + 1) }
          if c ∈ t.unitary_clauses ∧ t.satisfaction_map.getD c false = false then
            if t.num_of_unassigned_literals_in_clause.getD c 0 > 1 then
              { t with unitary_clauses := setRemove t.unitary_clauses c }
            else t
          else t
        else t) t) = twlFrame t := by
    intro idxs t
    apply twlFrame_foldl
    intro t c
    dsimp only
    split_ifs <;> rfl
  cases h1 : dictGet s.clauses_by_literal lit with
  | none =>
    dsimp only
    cases h2 : dictGet s.clauses_by_literal (-lit) with
    | none => rfl
    | some idxs2 => exact hb2 idxs2 s
  | some idxs =>
    dsimp only
    cases h2 : dictGet (idxs.foldl _ s).clauses_by_literal (-lit) with
    | none => exact hb1 idxs s
    | some idxs2 => exact (hb2 idxs2 _).trans (hb1 idxs s)

theorem twlUpdUndo_frame (s : TWLSATProblem) (lits : List Int) :
    twlFrame (s.updUndo lits) = twlFrame s :=
  twlFrame_foldl _ (fun t l => twlOLU_frame t l) lits s

theorem twlReplay_frame (lits clause cw : List Int) (newIdx : Nat)
    (s : TWLSATProblem) :
    twlFrame (twlReplay lits clause cw newIdx s) = twlFrame s := by
  unfold twlReplay
  rw [twlFrame_foldl _ (fun t l => twlNLA_frame t l),
    twlFrame_foldl (fun t lit =>
      { t with clauses_by_watched_literal :=
          cblAppend t.clauses_by_watched_literal lit newIdx }) (fun t l => rfl),
    twlFrame_foldl (fun t lit =>
      { t with clauses_by_literal := cblAppend t.clauses_by_literal lit newIdx })
      (fun t l => rfl),
    twlUpdUndo_frame]

theorem twlReplay_orig (lits clause cw : List Int) (newIdx : Nat)
    (s : TWLSATProblem) :
    (twlReplay lits clause cw newIdx s).original_clauses = s.original_clauses :=
  congrArg Prod.fst (twlReplay_frame lits clause cw newIdx s)

theorem twlReplay_count (lits clause cw : List Int) (newIdx : Nat)
    (s : TWLSATProblem) :
    (twlReplay lits clause cw newIdx s).number_of_clauses = s.number_of_clauses :=
  congrArg (fun p => p.2.2) (twlReplay_frame lits clause cw newIdx s)

theorem twl_addClause_frame (s : TWLSATProblem) (c : List Int) :
    (s.addClause c).assignments = s.assignments ∧
    (s.addClause c).original_clauses = s.original_clauses ++ [c] ∧
    (s.addClause c).number_of_clauses = s.number_of_clauses + 1 ∧
    ∀ j, j ≠ s.number_of_clauses →
      ((j ∈ (s.addClause c).unitary_clauses ↔ j ∈ s.unitary_clauses) ∧
       (j ∈ (s.addClause c).contradicted_clauses ↔ j ∈ s.contradicted_clauses)) := by
  unfold TWLSATProblem.addClause
  dsimp only
  refine ⟨?_, ?_, ?_, ?_⟩
  · split_ifs <;> rfl
  · rw [twlReplay_orig]
    split_ifs <;> rfl
  · rw [twlReplay_count]
    split_ifs <;> rfl
  · intro j hj
    constructor
    · split_ifs <;> simp [mem_setAdd, hj, Nat.add_sub_cancel]
    · split_ifs <;> simp [mem_setAdd, hj, Nat.add_sub_cancel]

/-- Rotation fixpoint of the 1-UIP loop: when the graph records literal 1 as a
decision (antecedent None), the pending list [-1, -1] is popped and pushed back
unchanged, so the loop never exits for any fuel. -/
theorem analyzeLoop_rotation (g : List (Int × (Int × Option Nat)))
    (cls : List (List Int)) (L lv : Int) (hg : dictGet g 1 = some (lv, none)) :
    ∀ (n : Nat) (learned seen : List Int),
      analyzeLoop g cls L n learned seen [-1, -1] = .error "Fuel"
  | 0, _, _ => rfl
  | n + 1, learned, seen => by
    show analyzeLoop g cls L (n + 1) learned seen [-1, -1] = .error "Fuel"
    unfold analyzeLoop
    rw [if_pos (by decide)]
    dsimp only
    rw [show (-(([-1, -1] : List Int).getLastD 0)) = 1 from by decide, hg]
    dsimp only
    exact analyzeLoop_rotation g cls L lv hg n learned seen

/-
The ten claims.
-/

/-- Claim C1: a DPLL run with the moms heuristic returns SAT while the final
assignments map satisfies no literal of clause 0 of the original formula
([1, 2] given x1 = false and x2 unassigned): the returned verdict true does not
imply every clause is satisfied by the returned assignments. The moms heuristic
counts already-assigned literals, proposes an assigned variable, and the engine
silently flips that assignment instead of branching. -/
theorem C1_moms_wrong_model :
    (dpllSolve (heurMoms 0) 12 [[1, 2], [1, 3], [-1, 4, 5], [-1, 4, 6]]).map
        (fun r => (r.1,
          cntTrue r.2.2.assignments (r.2.2.clauses.getD 0 []),
          r.2.2.assignments)) =
      .ok (true, 0, [(1, false)]) := rfl

/-- Claim C2: DPLL and CDCL do not agree on every CNF: on the unsatisfiable
formula (x1 ∨ x2)(x1 ∨ ¬x2)(¬x1 ∨ x2)(¬x1 ∨ ¬x2) DPLL returns the verdict
false while CDCL, upon its first conflict above level 0, calls the add_clause
method that the plain SATProblem state does not define and dies with an
AttributeError. -/
theorem C2_dpll_cdcl_disagree :
    (dpllSolve heurDefault 16 [[1, 2], [1, -2], [-1, 2], [-1, -2]]).map
        (fun r => r.1) = .ok false ∧
    cdclSolve heurDefault 16 [[1, 2], [1, -2], [-1, 2], [-1, -2]] =
      .error "AttributeError: add_clause" := ⟨rfl, rfl⟩

/-- Claim C3 (counterexample): in the solver-reachable state obtained by
assigning literal 1 on the formula [[1], [-1]], clause 1 sits in the unitary
set although it is unsatisfied with zero unassigned literals, so the claimed
equivalence (unitary iff unsatisfied with exactly one unassigned literal)
fails: _new_literal_assigned never removes a clause from unitary when its
unassigned count reaches zero. -/
theorem C3_unitary_iff_fails :
    Reaches (assignLit (SATProblem.init [[1], [-1]]) 1) ∧
    1 ∈ (assignLit (SATProblem.init [[1], [-1]]) 1).unitary_clauses ∧
    (assignLit (SATProblem.init [[1], [-1]]) 1).satisfaction_map.getD 1 false
      = false ∧
    cntUn (assignLit (SATProblem.init [[1], [-1]]) 1).assignments
      ((assignLit (SATProblem.init [[1], [-1]]) 1).clauses.getD 1 []) = 0 :=
  ⟨Reaches.assign _ 1 (Reaches.init _ (by decide)) (by decide) (by decide),
   by decide, by decide, by decide⟩

/-- Claim C3 (amended): in every reachable plain state, the satisfaction flag
of clause i holds iff some literal of the clause is made true by the current
assignments, the contradicted set contains i iff the clause is unsatisfied
with no unassigned literal, and the unitary set contains i iff the clause is
unsatisfied with AT MOST ONE unassigned literal (the stale zero-unassigned
case included). -/
theorem C3_bookkeeping_invariant (s : SATProblem) (hs : Reaches s) (i : Nat)
    (hi : i < s.clauses.length) :
    (s.satisfaction_map.getD i false = true ↔
      0 < cntTrue s.assignments (s.clauses.getD i [])) ∧
    (i ∈ s.unitary_clauses ↔
      cntTrue s.assignments (s.clauses.getD i []) = 0 ∧
      cntUn s.assignments (s.clauses.getD i []) ≤ 1) ∧
    (i ∈ s.contradicted_clauses ↔
      cntTrue s.assignments (s.clauses.getD i []) = 0 ∧
      cntUn s.assignments (s.clauses.getD i []) = 0) := by
  obtain ⟨h1, h2, h3, h4, h5⟩ := (reaches_wf hs).views i hi
  have h1' : s.satisfaction_map.getD i false =
      decide (0 < cntTrue s.assignments (s.clauses.getD i [])) := h1
  have h4' : decide (i ∈ s.unitary_clauses) =
      decide (cntTrue s.assignments (s.clauses.getD i []) = 0 ∧
        cntUn s.assignments (s.clauses.getD i []) ≤ 1) := h4
  have h5' : decide (i ∈ s.contradicted_clauses) =
      decide (cntTrue s.assignments (s.clauses.getD i []) = 0 ∧
        cntUn s.assignments (s.clauses.getD i []) = 0) := h5
  refine ⟨?_, decide_eq_decide.mp h4', decide_eq_decide.mp h5'⟩
  rw [h1']
  simp

/-- Claim C3 (amended) witness: the invariant at the freshly constructed state
of the one-clause formula [[1]], clause 0. -/
theorem C3_bookkeeping_invariant_witness :
    ((SATProblem.init [[1]]).satisfaction_map.getD 0 false = true ↔
      0 < cntTrue (SATProblem.init [[1]]).assignments
        ((SATProblem.init [[1]]).clauses.getD 0 [])) ∧
    (0 ∈ (SATProblem.init [[1]]).unitary_clauses ↔
      cntTrue (SATProblem.init [[1]]).assignments
        ((SATProblem.init [[1]]).clauses.getD 0 []) = 0 ∧
      cntUn (SATProblem.init [[1]]).assignments
        ((SATProblem.init [[1]]).clauses.getD 0 []) ≤ 1) ∧
    (0 ∈ (SATProblem.init [[1]]).contradicted_clauses ↔
      cntTrue (SATProblem.init [[1]]).assignments
        ((SATProblem.init [[1]]).clauses.getD 0 []) = 0 ∧
      cntUn (SATProblem.init [[1]]).assignments
        ((SATProblem.init [[1]]).clauses.getD 0 []) = 0) :=
  C3_bookkeeping_invariant (SATProblem.init [[1]])
    (Reaches.init [[1]] (by decide)) 0 (by decide)

/-- Claim C4 (counterexample, TWL variant): on the TWL state for [[-1, 2, 3]],
assigning literal 1 (which falsifies the watched literal -1 and triggers a
re-watch to [2, 3]) and then unassigning it does not restore the
watched-literal lists: the re-watch is never undone. -/
theorem C4_twl_roundtrip_fails :
    dictGet (TWLSATProblem.init [[-1, 2, 3]]).assignments (pyabs 1) = none ∧
    (twlUnassign (twlAssign (TWLSATProblem.init [[-1, 2, 3]]) 1) 1).clauses ≠
      (TWLSATProblem.init [[-1, 2, 3]]).clauses := ⟨by decide, by decide⟩

/-- Claim C4 (amended, plain variant): on every reachable plain state and every
literal whose variable is unassigned, assign followed by unassign restores
every field of the state: the clause list, assignments dict, literal index,
the three bookkeeping lists, and the unitary and contradicted sets up to
element order (Python sets are unordered). -/
theorem C4_plain_roundtrip (s : SATProblem) (l : Int) (hs : Reaches s)
    (hl : l ≠ 0) (hfree : dictGet s.assignments (pyabs l) = none) :
    (unassignLit (assignLit s l) l).clauses = s.clauses ∧
    (unassignLit (assignLit s l) l).assignments = s.assignments ∧
    (unassignLit (assignLit s l) l).clauses_by_literal = s.clauses_by_literal ∧
    (unassignLit (assignLit s l) l).satisfaction_map = s.satisfaction_map ∧
    (unassignLit (assignLit s l) l).num_of_assigned_literals_that_satisfy_a_clause
      = s.num_of_assigned_literals_that_satisfy_a_clause ∧
    (unassignLit (assignLit s l) l).num_of_unassigned_literals_in_clause
      = s.num_of_unassigned_literals_in_clause ∧
    (∀ j, j ∈ (unassignLit (assignLit s l) l).unitary_clauses ↔
      j ∈ s.unitary_clauses) ∧
    (∀ j, j ∈ (unassignLit (assignLit s l) l).contradicted_clauses ↔
      j ∈ s.contradicted_clauses) := by
  obtain ⟨hc, ha, hcb, hsm, hns, hnu, hv⟩ :=
    roundTrip_views s l (reaches_wf hs) hl hfree
  refine ⟨hc, ha, hcb, ?_, ?_, ?_, fun j => unit_mem_of_viewAt_eq (hv j),
    fun j => contr_mem_of_viewAt_eq (hv j)⟩
  · exact getD_ext _ _ false hsm (fun i => congrArg ClauseView.sat (hv i))
  · exact getD_ext _ _ 0 hns (fun i => congrArg ClauseView.ns (hv i))
  · exact getD_ext _ _ 0 hnu (fun i => congrArg ClauseView.nu (hv i))

/-- Claim C4 (amended) witness: the round trip of literal 1 on the freshly
constructed state of [[1, 2]]. -/
theorem C4_plain_roundtrip_witness :
    (unassignLit (assignLit (SATProblem.init [[1, 2]]) 1) 1).clauses =
      (SATProblem.init [[1, 2]]).clauses ∧
    (unassignLit (assignLit (SATProblem.init [[1, 2]]) 1) 1).assignments =
      (SATProblem.init [[1, 2]]).assignments ∧
    (unassignLit (assignLit (SATProblem.init [[1, 2]]) 1) 1).clauses_by_literal =
      (SATProblem.init [[1, 2]]).clauses_by_literal ∧
    (unassignLit (assignLit (SATProblem.init [[1, 2]]) 1) 1).satisfaction_map =
      (SATProblem.init [[1, 2]]).satisfaction_map ∧
    (unassignLit (assignLit (SATProblem.init [[1, 2]]) 1)
        1).num_of_assigned_literals_that_satisfy_a_clause =
      (SATProblem.init [[1, 2]]).num_of_assigned_literals_that_satisfy_a_clause ∧
    (unassignLit (assignLit (SATProblem.init [[1, 2]]) 1)
        1).num_of_unassigned_literals_in_clause =
      (SATProblem.init [[1, 2]]).num_of_unassigned_literals_in_clause ∧
    (∀ j, j ∈ (unassignLit (assignLit (SATProblem.init [[1, 2]]) 1)
        1).unitary_clauses ↔ j ∈ (SATProblem.init [[1, 2]]).unitary_clauses) ∧
    (∀ j, j ∈ (unassignLit (assignLit (SATProblem.init [[1, 2]]) 1)
        1).contradicted_clauses ↔
      j ∈ (SATProblem.init [[1, 2]]).contradicted_clauses) :=
  C4_plain_roundtrip (SATProblem.init [[1, 2]]) 1
    (Reaches.init [[1, 2]] (by decide)) (by decide) (by decide)

/-- Claim C5: under the plain state, a CDCL conflict at decision level 1 on the
formula (x1 ∨ x2)(¬x1 ∨ x2)(¬x2 ∨ x3)(¬x2 ∨ ¬x3) does not lead to clause
learning, backjumping and continuation: the engine dies calling the add_clause
method the plain SATProblem state never defines. -/
theorem C5_plain_add_clause_missing :
    cdclSolve heurDefault 16 [[1, 2], [-1, 2], [-2, 3], [-2, -3]] =
      .error "AttributeError: add_clause" := rfl

/-- Claim C6: _analyze_conflict does not always terminate. At the conflict
state reached on [[3], [1, 4], [-1, 2], [-1, -1, -3]] (propagate 3 at level 0,
decide 1 and propagate 2 at level 1, conflict on clause [-1, -1, -3]), the
pending list is [-1, -1]; popping -1 finds the decision entry of variable 1
and pushes -1 back, leaving the list unchanged, so no fuel suffices, and the
whole solve run errors out for lack of fuel instead of learning a clause. -/
theorem C6_analyze_conflict_diverges :
    (∀ n : Nat, analyzeConflict
      { problem := SATProblem.init [[3], [1, 4], [-1, 2], [-1, -1, -3]]
        decision_level := 1
        implication_graph := [(3, (0, some 0)), (1, (1, none)), (2, (1, some 2))]
        learned_clauses := [] } [-1, -1, -3] n = .error "Fuel") ∧
    cdclSolve heurDefault 9 [[3], [1, 4], [-1, 2], [-1, -1, -3]] =
      .error "Fuel" :=
  ⟨fun n => analyzeLoop_rotation
      [(3, (0, some 0)), (1, (1, none)), (2, (1, some 2))]
      [[3], [1, 4], [-1, 2], [-1, -1, -3]] 1 1 rfl n
      (intSetOfList [-1, -1, -3]) [], rfl⟩

/-- Claim C8: on the state where the single clause [[1]] is satisfied by the
assignment x1 = true (no unsatisfied clause has an unassigned literal), the
dlcs and dlis heuristics evaluate None * sign (a TypeError) and the moms
heuristic takes the min of an empty sequence (a ValueError); none of them
returns the empty result. -/
theorem C8_heuristics_raise :
    dlcs (assignLit (SATProblem.init [[1]]) 1) = .error "TypeError" ∧
    dlis (assignLit (SATProblem.init [[1]]) 1) = .error "TypeError" ∧
    moms (assignLit (SATProblem.init [[1]]) 1) 0 = .error "ValueError" :=
  ⟨rfl, rfl, rfl⟩

/-- Claim C9 (counterexample): on a TWL state for [[-1, 2, 3]] reached by
assigning -3 then 1 then unassigning -3 (leaving x1 = true and clause 0
watching [-1, 2]), add_clause([-1]) rewatches the PRE-EXISTING clause 0 to
[2, 3] during its replay, and leaves the new clause 1 simultaneously in
unitary and contradicted with zero unassigned literals, so neither the frame
part nor the consistency part of the claim holds. -/
theorem C9_watched_disturbed :
    (((twlUnassign (twlAssign (twlAssign (TWLSATProblem.init [[-1, 2, 3]])
        (-3)) 1) (-3)).addClause [-1]).clauses.getD 0 [] ≠
      (twlUnassign (twlAssign (twlAssign (TWLSATProblem.init [[-1, 2, 3]])
        (-3)) 1) (-3)).clauses.getD 0 []) ∧
    1 ∈ ((twlUnassign (twlAssign (twlAssign (TWLSATProblem.init [[-1, 2, 3]])
        (-3)) 1) (-3)).addClause [-1]).unitary_clauses ∧
    1 ∈ ((twlUnassign (twlAssign (twlAssign (TWLSATProblem.init [[-1, 2, 3]])
        (-3)) 1) (-3)).addClause [-1]).contradicted_clauses ∧
    ((twlUnassign (twlAssign (twlAssign (TWLSATProblem.init [[-1, 2, 3]])
        (-3)) 1) (-3)).addClause
        [-1]).num_of_unassigned_literals_in_clause.getD 1 0 = 0 := by
  refine ⟨by decide, by decide, by decide, by decide⟩

/-- Claim C9 (amended): on every TWL state, add_clause(c) leaves the
assignments map unchanged, appends c to original_clauses, increments the
clause count, and leaves membership of every pre-existing clause index in the
unitary and contradicted sets unchanged. -/
theorem C9_add_clause_frame (s : TWLSATProblem) (c : List Int) :
    (s.addClause c).assignments = s.assignments ∧
    (s.addClause c).original_clauses = s.original_clauses ++ [c] ∧
    (s.addClause c).number_of_clauses = s.number_of_clauses + 1 ∧
    ∀ j, j ≠ s.number_of_clauses →
      ((j ∈ (s.addClause c).unitary_clauses ↔ j ∈ s.unitary_clauses) ∧
       (j ∈ (s.addClause c).contradicted_clauses ↔
        j ∈ s.contradicted_clauses)) :=
  twl_addClause_frame s c

/-- Claim C10 (counterexample): in the solver-reachable state obtained by
assigning literal 2 on [[2], [-2]], clause 1 is in the unitary set while none
of its literals has an unassigned variable; the generator search of
_unit_propagation would be exhausted (StopIteration) on it. -/
theorem C10_unitary_stale :
    Reaches (assignLit (SATProblem.init [[2], [-2]]) 2) ∧
    1 ∈ (assignLit (SATProblem.init [[2], [-2]]) 2).unitary_clauses ∧
    ∀ x ∈ (assignLit (SATProblem.init [[2], [-2]]) 2).clauses.getD 1 [],
      litUnassigned (assignLit (SATProblem.init [[2], [-2]]) 2).assignments x
        = false :=
  ⟨Reaches.assign _ 2 (Reaches.init _ (by decide)) (by decide) (by decide),
   by decide, by decide⟩

/-- Claim C10 (amended): in every reachable plain state, every clause index in
the unitary set either has a literal whose variable is unassigned or is also
in the contradicted set (in which case the engine reports the conflict before
searching for a unit literal). -/
theorem C10_unitary_has_unassigned_or_contradicted (s : SATProblem)
    (hs : Reaches s) (i : Nat) (hi : i ∈ s.unitary_clauses) :
    (∃ x ∈ s.clauses.getD i [], litUnassigned s.assignments x = true) ∨
      i ∈ s.contradicted_clauses := by
  have hwf := reaches_wf hs
  have hlt := hwf.unit_lt i hi
  obtain ⟨h1, h2, h3, h4, h5⟩ := hwf.views i hlt
  have h4' : decide (i ∈ s.unitary_clauses) =
      decide (cntTrue s.assignments (s.clauses.getD i []) = 0 ∧
        cntUn s.assignments (s.clauses.getD i []) ≤ 1) := h4
  have h5' : decide (i ∈ s.contradicted_clauses) =
      decide (cntTrue s.assignments (s.clauses.getD i []) = 0 ∧
        cntUn s.assignments (s.clauses.getD i []) = 0) := h5
  have hu := (decide_eq_decide.mp h4').mp hi
  by_cases hz : cntUn s.assignments (s.clauses.getD i []) = 0
  · exact Or.inr ((decide_eq_decide.mp h5').mpr ⟨hu.1, hz⟩)
  · refine Or.inl ?_
    have hpos : 0 < cntUn s.assignments (s.clauses.getD i []) :=
      Nat.pos_of_ne_zero hz
    unfold cntUn at hpos
    obtain ⟨x, hx, hpx⟩ := List.countP_pos.mp hpos
    exact ⟨x, hx, hpx⟩

/-- Claim C10 (amended) witness: clause 0 of the freshly constructed state of
[[1]] is unitary and literal 1 is unassigned there. -/
theorem C10_unitary_witness :
    (∃ x ∈ (SATProblem.init [[1]]).clauses.getD 0 [],
      litUnassigned (SATProblem.init [[1]]).assignments x = true) ∨
      0 ∈ (SATProblem.init [[1]]).contradicted_clauses :=
  C10_unitary_has_unassigned_or_contradicted (SATProblem.init [[1]])
    (Reaches.init [[1]] (by decide)) 0 (by decide)

end SatCheck
